import Mathlib

/-!
Verification development for the pi-agent-teams leader coordination kernel.

The definitions below are shallow embeddings of the TypeScript sources:
`team-attach-claim.ts`, `model-policy.ts`, `names.ts` (name picking and
protocol envelope readers), `leader-teams-tool.ts` (teams tool actions),
`teammate-rpc.ts` (close handling), `team-discovery.ts`.

Strings are Lean `String`s; JavaScript string operations (`includes`,
`indexOf`, `slice`, `at`, template literals) are modelled over `String.data`
character lists.  `Date.parse` and `new Date(ms).toISOString()` are modelled
as explicit function parameters (`parseDate : String → Option Int`,
`toIso : Int → String`) since they are host-runtime primitives.  The
filesystem is modelled as explicit state passing: a claim file is an
`Option TeamAttachClaim`, the task list is a `List Task`, mailboxes are an
append-only log of writes.
-/

/-- Decimal digit character, as produced by a JS template literal for 0-9. -/
def digitChar (k : Nat) : Char :=
  match k with
  | 0 => '0' | 1 => '1' | 2 => '2' | 3 => '3' | 4 => '4'
  | 5 => '5' | 6 => '6' | 7 => '7' | 8 => '8' | 9 => '9'
  | _ => '*'

/-- Fuel-driven decimal digits of a natural number (most significant first).
Models the decimal numeral a JS template literal renders for a number. -/
def natDigits : Nat → Nat → List Char
  | 0, _ => []
  | fuel + 1, n =>
    if n < 10 then [digitChar n]
    else natDigits fuel (n / 10) ++ [digitChar (n % 10)]

/-- Decimal rendering of a natural number, the embedding of a JS
template literal slot holding that number. -/
def natToDecimal (n : Nat) : String :=
  String.mk (natDigits (n + 1) n)

/-- Value of a list of decimal digit characters (inverse of `natDigits`). -/
def decodeVal (l : List Char) : Nat :=
  l.foldl (fun a c => 10 * a + (c.toNat - 48)) 0

/-- A candidate name of the shape `p ++ <decimal j>`, as produced by the JS
template literals in the name-picking loops. -/
def candAt (p : String) (j : Nat) : String :=
  p ++ natToDecimal j

/-- The decimal index a name of shape `p ++ <decimal j>` encodes
(arbitrary on other names). -/
def candIdx (p : String) (n : String) : Nat :=
  decodeVal (n.data.drop p.length)

/-! ## JS string operation helpers (over `String.data`) -/

/-- First index at which `needle` occurs as a contiguous substring of `hay`
(`String.prototype.indexOf`; `none` models the JS return value -1). -/
def firstInfixIdx : List Char → List Char → Option Nat
  | hay, needle =>
    if needle.isPrefixOf hay then some 0
    else
      match hay with
      | [] => none
      | _ :: t => (firstInfixIdx t needle).map (· + 1)

/-- `s.indexOf(sub)`, with `none` for -1. -/
def jsIndexOf (s sub : String) : Option Nat :=
  firstInfixIdx s.data sub.data

/-- `s.includes(sub)`. -/
def jsIncludes (s sub : String) : Bool :=
  (jsIndexOf s sub).isSome

/-- `s.slice(0, i)`. -/
def jsTake (s : String) (i : Nat) : String :=
  String.mk (s.data.take i)

/-- `s.slice(i)`. -/
def jsDrop (s : String) (i : Nat) : String :=
  String.mk (s.data.drop i)

/-- `s.at(i)` (for a string, the single character there or undefined). -/
def jsAt (s : String) (i : Nat) : Option Char :=
  s.data.get? i

/-- `s.toLowerCase()` restricted to ASCII case mapping. -/
def jsToLower (s : String) : String :=
  String.mk (s.data.map Char.toLower)

/-! ## Attach claim (`team-attach-claim.ts`) -/

/-- Parsed contents of `.attach-claim.json` (`TeamAttachClaim`). -/
structure TeamAttachClaim where
  holderSessionId : String
  claimedAt : String
  heartbeatAt : String
  pid : Nat
deriving DecidableEq, Repr

def TEAM_ATTACH_CLAIM_STALE_MS : Int := 30000

/-- Result of `assessAttachClaimFreshness`; `ageMs = none` models the
`Number.POSITIVE_INFINITY` returned for an unparseable heartbeat. -/
structure AttachClaimFreshness where
  isStale : Bool
  ageMs : Option Int
deriving DecidableEq, Repr

/-- `assessAttachClaimFreshness(claim, nowMs, staleMs)`; `parseDate` stands
for `Date.parse` (`none` = not finite). -/
def assessAttachClaimFreshness (parseDate : String → Option Int)
    (claim : TeamAttachClaim) (nowMs staleMs : Int) : AttachClaimFreshness :=
  match parseDate claim.heartbeatAt with
  | none => { isStale := true, ageMs := none }
  | some heartbeatMs =>
    let ageMs := max 0 (nowMs - heartbeatMs)
    { isStale := decide (ageMs > staleMs), ageMs := some ageMs }

/-- `AcquireTeamAttachClaimResult`: `ok` with the written claim and the
optional `replacedClaim`, or the refusal carrying reason
`claimed_by_other` and the existing claim. -/
inductive AcquireTeamAttachClaimResult where
  | ok (claim : TeamAttachClaim) (replacedClaim : Option TeamAttachClaim)
  | claimedByOther (claim : TeamAttachClaim)
deriving DecidableEq, Repr

/-- `acquireTeamAttachClaim` with the filesystem made explicit: `stored` is
the current contents of the claim file (after `readClaimUnchecked`), and the
second component of the result is the file contents afterwards.  `toIso`
stands for `new Date(nowMs).toISOString()` and `pid` for `process.pid`. -/
def acquireTeamAttachClaim (parseDate : String → Option Int) (toIso : Int → String)
    (pid : Nat) (stored : Option TeamAttachClaim) (holderSessionId : String)
    (force : Bool) (staleMs nowMs : Int) :
    AcquireTeamAttachClaimResult × Option TeamAttachClaim :=
  let nowIso := toIso nowMs
  match stored with
  | some current =>
    let freshness := assessAttachClaimFreshness parseDate current nowMs staleMs
    let sameHolder := current.holderSessionId == holderSessionId
    if !sameHolder && !freshness.isStale && !force then
      (.claimedByOther current, some current)
    else
      let claim : TeamAttachClaim :=
        { holderSessionId := holderSessionId
          claimedAt := if sameHolder then current.claimedAt else nowIso
          heartbeatAt := nowIso
          pid := pid }
      (.ok claim (if sameHolder then none else some current), some claim)
  | none =>
    let claim : TeamAttachClaim :=
      { holderSessionId := holderSessionId, claimedAt := nowIso
        heartbeatAt := nowIso, pid := pid }
    (.ok claim none, some claim)

/-- `s.trim()` (whitespace stripped from both ends). -/
def jsTrim (s : String) : String :=
  String.mk (((s.data.dropWhile Char.isWhitespace).reverse.dropWhile
    Char.isWhitespace).reverse)

/-- `s.startsWith(p)`. -/
def jsStartsWith (s p : String) : Bool :=
  p.data.isPrefixOf s.data

def SONNET4_DEPRECATED_MARKER : String := "claude-sonnet-4"

def SONNET45_ALLOWED_MARKERS : List String :=
  ["claude-sonnet-4-5", "claude-sonnet-4.5"]

def normalizeModelId (modelId : String) : String :=
  jsToLower (jsTrim modelId)

def hasAnyMarker (value : String) (markers : List String) : Bool :=
  markers.any (fun marker => jsIncludes value marker)

def trimOrUndefined (value : Option String) : Option String :=
  match value with
  | none => none
  | some s =>
    let trimmed := jsTrim s
    if trimmed.length > 0 then some trimmed else none

/-- `isDeprecatedTeammateModelId` from `model-policy.ts`. -/
def isDeprecatedTeammateModelId (modelId : String) : Bool :=
  let normalized := normalizeModelId modelId
  if normalized.length = 0 then false
  else if !(jsIncludes normalized SONNET4_DEPRECATED_MARKER) then false
  else if hasAnyMarker normalized SONNET45_ALLOWED_MARKERS then false
  else
    match jsIndexOf normalized SONNET4_DEPRECATED_MARKER with
    | none => false
    | some idx =>
      match jsAt normalized (idx + SONNET4_DEPRECATED_MARKER.length) with
      | none => true
      | some next => next == '-' || next == '_' || next == '.' || next == ':'

/-- The claim's wording for the deprecation rule, written independently of
the implementation: the marker appears in the trimmed, lowercased id and the
text right after it does not start with one of the allow-listed extensions
"-5" / ".5". -/
def deprecatedPerClaimWording (modelId : String) : Bool :=
  let normalized := normalizeModelId modelId
  match jsIndexOf normalized SONNET4_DEPRECATED_MARKER with
  | none => false
  | some idx =>
    let rest := jsDrop normalized (idx + SONNET4_DEPRECATED_MARKER.length)
    !(jsStartsWith rest "-5" || jsStartsWith rest ".5")

/-- The amended wording for the deprecation rule: the marker appears in the
trimmed, lowercased id, no allow-listed form ("claude-sonnet-4-5" /
"claude-sonnet-4.5") appears anywhere in it, and the character immediately
after the first marker occurrence is absent or a separator
('-', '_', '.', ':'). -/
def deprecatedPerAmendedWording (modelId : String) : Bool :=
  let normalized := normalizeModelId modelId
  jsIncludes normalized SONNET4_DEPRECATED_MARKER &&
  !(jsIncludes normalized "claude-sonnet-4-5") &&
  !(jsIncludes normalized "claude-sonnet-4.5") &&
  (match jsIndexOf normalized SONNET4_DEPRECATED_MARKER with
   | none => false
   | some idx =>
     match jsAt normalized (idx + SONNET4_DEPRECATED_MARKER.length) with
     | none => true
     | some next => next == '-' || next == '_' || next == '.' || next == ':')

inductive TeammateModelSource where
  | override
  | inherit_leader
  | default
deriving DecidableEq, Repr

structure ResolvedTeammateModel where
  source : TeammateModelSource
  provider : Option String
  modelId : Option String
  warnings : List String
deriving DecidableEq, Repr

inductive ResolveFailureReason where
  | invalid_override
  | deprecated_override
deriving DecidableEq, Repr

inductive ResolveTeammateModelResult where
  | ok (value : ResolvedTeammateModel)
  | err (error : String) (reason : ResolveFailureReason)
deriving DecidableEq, Repr

structure ResolveTeammateModelInput where
  modelOverride : Option String
  leaderProvider : Option String
  leaderModelId : Option String
deriving DecidableEq, Repr

/-- `resolveTeammateModelSelection` from `model-policy.ts`. -/
def resolveTeammateModelSelection (input : ResolveTeammateModelInput) :
    ResolveTeammateModelResult :=
  match trimOrUndefined input.modelOverride with
  | some ov =>
    match jsIndexOf ov "/" with
    | some slashIdx =>
      let provider := jsTrim (jsTake ov slashIdx)
      let id := jsTrim (jsDrop ov (slashIdx + 1))
      if provider.length = 0 || id.length = 0 then
        .err ("Invalid model override '" ++ ov ++ "'. Expected <provider>/<modelId>.")
          .invalid_override
      else if isDeprecatedTeammateModelId id then
        .err ("Model override '" ++ ov ++ "' is deprecated. Choose a current model id.")
          .deprecated_override
      else
        .ok { source := .override, provider := some provider, modelId := some id
              warnings := [] }
    | none =>
      if isDeprecatedTeammateModelId ov then
        .err ("Model override '" ++ ov ++ "' is deprecated. Choose a current model id.")
          .deprecated_override
      else
        let leaderProvider := trimOrUndefined input.leaderProvider
        let warnings :=
          match leaderProvider with
          | none =>
            ["Model override '" ++ ov ++ "' provided without a provider. " ++
             "Teammate will use its default provider; use <provider>/<modelId> to force one."]
          | some _ => []
        .ok { source := .override, provider := leaderProvider, modelId := some ov
              warnings := warnings }
  | none =>
    let leaderModelId := trimOrUndefined input.leaderModelId
    let leaderProvider := trimOrUndefined input.leaderProvider
    match leaderModelId with
    | some lm =>
      if !isDeprecatedTeammateModelId lm then
        .ok { source := .inherit_leader, provider := leaderProvider
              modelId := some lm, warnings := [] }
      else
        .ok { source := .default, provider := none, modelId := none, warnings := [] }
    | none =>
      .ok { source := .default, provider := none, modelId := none, warnings := [] }

/-! ## Name picking (`names.ts`) -/

/-- `sanitizeName`: every character outside `[a-zA-Z0-9_-]` replaced
with '-'. -/
def sanitizeName (name : String) : String :=
  String.mk (name.data.map (fun c =>
    if c.isAlphanum || c == '_' || c == '-' then c else '-'))

/-- The `while` loop inside `pickNamesFromPool` that searches for the first
fresh fallback candidate `<base>-2`, `<base>-3`, ...; the fuel argument only
bounds the search and is chosen large enough at the call site that the
fuel-exhausted branch is unreachable. -/
def fallbackCandidate (taken picked : List String) (base : String) :
    Nat → Nat → String
  | suffix, 0 => candAt (base ++ "-") suffix
  | suffix, fuel + 1 =>
    let candidate := candAt (base ++ "-") suffix
    if candidate ∈ taken ∨ candidate ∈ picked then
      fallbackCandidate taken picked base (suffix + 1) fuel
    else candidate

/-- The `for` loop of `pickNamesFromPool`: `remaining` counts the loop
iterations still to run, `i` is the loop index. -/
def pickNamesFromPoolGo (pool taken : List String) (fallbackBase : String)
    (available : List String) : Nat → Nat → List String → List String
  | 0, _, picked => picked
  | remaining + 1, i, picked =>
    match available.get? i with
    | some avail =>
      pickNamesFromPoolGo pool taken fallbackBase available remaining (i + 1)
        (picked ++ [avail])
    | none =>
      let base :=
        if pool.length > 0 then pool.getD (i % pool.length) fallbackBase
        else fallbackBase
      let candidate :=
        fallbackCandidate taken picked base 2 (taken.length + picked.length + 1)
      pickNamesFromPoolGo pool taken fallbackBase available remaining (i + 1)
        (picked ++ [candidate])

/-- `pickNamesFromPool({pool, count, taken, fallbackBase})`; the `taken`
read-only set is modelled as a list with membership lookup. -/
def pickNamesFromPool (pool : List String) (count : Nat) (taken : List String)
    (fallbackBase : String) : List String :=
  let available := pool.filter (fun n => decide (n ∉ taken))
  pickNamesFromPoolGo pool taken fallbackBase available count 0 []

/-- The `while` loop of `pickAgentNames`; the fuel is chosen at the call
site large enough (`count + taken.length`) that it never runs out before
`picked` reaches `count` entries. -/
def pickAgentNamesGo (taken : List String) (count : Nat) :
    Nat → Nat → List String → List String
  | 0, _, picked => picked
  | fuel + 1, i, picked =>
    if picked.length < count then
      let candidate := candAt "agent" i
      if candidate ∈ taken ∨ candidate ∈ picked then
        pickAgentNamesGo taken count fuel (i + 1) picked
      else
        pickAgentNamesGo taken count fuel (i + 1) (picked ++ [candidate])
    else picked

/-- `pickAgentNames(count, taken)`: deterministic `agent1, agent2, ...`
skipping taken names. -/
def pickAgentNames (count : Nat) (taken : List String) : List String :=
  pickAgentNamesGo taken count (count + taken.length) 1 []

/-- Boolean predicate: `n` is a candidate name `p ++ <decimal j>` for some
`j ≥ s` (used only to measure how many taken names a candidate scan can
still collide with). -/
def candFrom (p : String) (s : Nat) (n : String) : Bool :=
  n == candAt p (candIdx p n) && decide (s ≤ candIdx p n)

/-! ## Protocol envelope readers (`names.ts`, leader/worker inbox side) -/

/-- JSON values as produced by `JSON.parse`. -/
inductive Js where
  | null
  | bool (b : Bool)
  | num (n : Int)
  | str (s : String)
  | arr (elems : List Js)
  | obj (fields : List (String × Js))

/-- Property access `obj[key]` (`none` = undefined).  `JSON.parse` output
has unique keys, so first-match lookup agrees with JS semantics; arrays and
primitives have no own string-keyed properties. -/
def getField : Js → String → Option Js
  | .obj fields, key => (fields.find? (fun p => p.1 == key)).map (fun p => p.2)
  | _, _ => none

/-- `obj` passes the `!obj || typeof obj !== "object"` guard: a non-null
object or an array. -/
def isObjLike : Js → Bool
  | .obj _ => true
  | .arr _ => true
  | _ => false

/-- `typeof obj[key] === "string" ? obj[key] : undefined`. -/
def getStr (j : Js) (key : String) : Option String :=
  match getField j key with
  | some (.str s) => some s
  | _ => none

structure IdleNotification where
  «from» : String
  timestamp : Option String
  completedTaskId : Option String
  completedStatus : Option String
  failureReason : Option String
deriving DecidableEq, Repr

/-- Body of `isIdleNotification` after `safeParseJson` succeeded. -/
def isIdleNotificationCore (obj : Js) : Option IdleNotification :=
  if !isObjLike obj then none
  else
    match getField obj "type" with
    | some (.str t) =>
      if t = "idle_notification" then
        some { «from» := (getStr obj "from").getD "unknown"
               timestamp := getStr obj "timestamp"
               completedTaskId := getStr obj "completedTaskId"
               completedStatus := getStr obj "completedStatus"
               failureReason := getStr obj "failureReason" }
      else none
    | _ => none

/-- `isIdleNotification` from `names.ts`; `parse` stands for the
`JSON.parse` wrapped in `safeParseJson` (`none` = parse threw). -/
def isIdleNotification (parse : String → Option Js) (text : String) :
    Option IdleNotification :=
  match parse text with
  | none => none
  | some obj => isIdleNotificationCore obj

structure ShutdownApproved where
  «from» : String
  requestId : String
  timestamp : Option String
deriving DecidableEq, Repr

def isShutdownApprovedCore (obj : Js) : Option ShutdownApproved :=
  if !isObjLike obj then none
  else
    match getField obj "type" with
    | some (.str t) =>
      if t = "shutdown_approved" then
        match getStr obj "requestId" with
        | some requestId =>
          some { «from» := (getStr obj "from").getD "unknown"
                 requestId := requestId
                 timestamp := getStr obj "timestamp" }
        | none => none
      else none
    | _ => none

def isShutdownApproved (parse : String → Option Js) (text : String) :
    Option ShutdownApproved :=
  match parse text with
  | none => none
  | some obj => isShutdownApprovedCore obj

structure ShutdownRejected where
  «from» : String
  requestId : String
  reason : String
  timestamp : Option String
deriving DecidableEq, Repr

def isShutdownRejectedCore (obj : Js) : Option ShutdownRejected :=
  if !isObjLike obj then none
  else
    match getField obj "type" with
    | some (.str t) =>
      if t = "shutdown_rejected" then
        match getStr obj "requestId" with
        | some requestId =>
          some { «from» := (getStr obj "from").getD "unknown"
                 requestId := requestId
                 reason := (getStr obj "reason").getD ""
                 timestamp := getStr obj "timestamp" }
        | none => none
      else none
    | _ => none

def isShutdownRejected (parse : String → Option Js) (text : String) :
    Option ShutdownRejected :=
  match parse text with
  | none => none
  | some obj => isShutdownRejectedCore obj

structure PlanApprovalRequest where
  requestId : String
  «from» : String
  plan : String
  taskId : Option String
  timestamp : Option String
deriving DecidableEq, Repr

def isPlanApprovalRequestCore (obj : Js) : Option PlanApprovalRequest :=
  if !isObjLike obj then none
  else
    match getField obj "type" with
    | some (.str t) =>
      if t = "plan_approval_request" then
        match getStr obj "requestId", getStr obj "from", getStr obj "plan" with
        | some requestId, some fromName, some plan =>
          some { requestId := requestId, «from» := fromName, plan := plan
                 taskId := getStr obj "taskId"
                 timestamp := getStr obj "timestamp" }
        | _, _, _ => none
      else none
    | _ => none

def isPlanApprovalRequest (parse : String → Option Js) (text : String) :
    Option PlanApprovalRequest :=
  match parse text with
  | none => none
  | some obj => isPlanApprovalRequestCore obj

structure PeerDmSent where
  «from» : String
  «to» : String
  summary : String
  timestamp : Option String
deriving DecidableEq, Repr

def isPeerDmSentCore (obj : Js) : Option PeerDmSent :=
  if !isObjLike obj then none
  else
    match getField obj "type" with
    | some (.str t) =>
      if t = "peer_dm_sent" then
        match getStr obj "from", getStr obj "to", getStr obj "summary" with
        | some fromName, some toName, some summary =>
          some { «from» := fromName, «to» := toName, summary := summary
                 timestamp := getStr obj "timestamp" }
        | _, _, _ => none
      else none
    | _ => none

def isPeerDmSent (parse : String → Option Js) (text : String) :
    Option PeerDmSent :=
  match parse text with
  | none => none
  | some obj => isPeerDmSentCore obj

structure TaskAssignmentMessage where
  taskId : String
  subject : Option String
  description : Option String
  assignedBy : Option String
deriving DecidableEq, Repr

def isTaskAssignmentMessageCore (obj : Js) : Option TaskAssignmentMessage :=
  if !isObjLike obj then none
  else
    match getField obj "type" with
    | some (.str t) =>
      if t = "task_assignment" then
        match getStr obj "taskId" with
        | some taskId =>
          some { taskId := taskId
                 subject := getStr obj "subject"
                 description := getStr obj "description"
                 assignedBy := getStr obj "assignedBy" }
        | none => none
      else none
    | _ => none

def isTaskAssignmentMessage (parse : String → Option Js) (text : String) :
    Option TaskAssignmentMessage :=
  match parse text with
  | none => none
  | some obj => isTaskAssignmentMessageCore obj

structure ShutdownRequestMessage where
  requestId : String
  «from» : Option String
  reason : Option String
  timestamp : Option String
deriving DecidableEq, Repr

def isShutdownRequestMessageCore (obj : Js) : Option ShutdownRequestMessage :=
  if !isObjLike obj then none
  else
    match getField obj "type" with
    | some (.str t) =>
      if t = "shutdown_request" then
        match getStr obj "requestId" with
        | some requestId =>
          some { requestId := requestId
                 «from» := getStr obj "from"
                 reason := getStr obj "reason"
                 timestamp := getStr obj "timestamp" }
        | none => none
      else none
    | _ => none

def isShutdownRequestMessage (parse : String → Option Js) (text : String) :
    Option ShutdownRequestMessage :=
  match parse text with
  | none => none
  | some obj => isShutdownRequestMessageCore obj

structure SetSessionNameMessage where
  name : String
deriving DecidableEq, Repr

def isSetSessionNameMessageCore (obj : Js) : Option SetSessionNameMessage :=
  if !isObjLike obj then none
  else
    match getField obj "type" with
    | some (.str t) =>
      if t = "set_session_name" then
        match getStr obj "name" with
        | some name => some { name := name }
        | none => none
      else none
    | _ => none

def isSetSessionNameMessage (parse : String → Option Js) (text : String) :
    Option SetSessionNameMessage :=
  match parse text with
  | none => none
  | some obj => isSetSessionNameMessageCore obj

structure AbortRequestMessage where
  requestId : String
  «from» : Option String
  taskId : Option String
  reason : Option String
  timestamp : Option String
deriving DecidableEq, Repr

def isAbortRequestMessageCore (obj : Js) : Option AbortRequestMessage :=
  if !isObjLike obj then none
  else
    match getField obj "type" with
    | some (.str t) =>
      if t = "abort_request" then
        match getStr obj "requestId" with
        | some requestId =>
          some { requestId := requestId
                 «from» := getStr obj "from"
                 taskId := getStr obj "taskId"
                 reason := getStr obj "reason"
                 timestamp := getStr obj "timestamp" }
        | none => none
      else none
    | _ => none

def isAbortRequestMessage (parse : String → Option Js) (text : String) :
    Option AbortRequestMessage :=
  match parse text with
  | none => none
  | some obj => isAbortRequestMessageCore obj

structure PlanApprovedMessage where
  requestId : String
  «from» : String
  timestamp : String
deriving DecidableEq, Repr

def isPlanApprovedMessageCore (obj : Js) : Option PlanApprovedMessage :=
  if !isObjLike obj then none
  else
    match getField obj "type" with
    | some (.str t) =>
      if t = "plan_approved" then
        match getStr obj "requestId", getStr obj "from" with
        | some requestId, some fromName =>
          some { requestId := requestId, «from» := fromName
                 timestamp := (getStr obj "timestamp").getD "" }
        | _, _ => none
      else none
    | _ => none

def isPlanApprovedMessage (parse : String → Option Js) (text : String) :
    Option PlanApprovedMessage :=
  match parse text with
  | none => none
  | some obj => isPlanApprovedMessageCore obj

structure PlanRejectedMessage where
  requestId : String
  «from» : String
  feedback : String
  timestamp : String
deriving DecidableEq, Repr

def isPlanRejectedMessageCore (obj : Js) : Option PlanRejectedMessage :=
  if !isObjLike obj then none
  else
    match getField obj "type" with
    | some (.str t) =>
      if t = "plan_rejected" then
        match getStr obj "requestId", getStr obj "from" with
        | some requestId, some fromName =>
          some { requestId := requestId, «from» := fromName
                 feedback := (getStr obj "feedback").getD ""
                 timestamp := (getStr obj "timestamp").getD "" }
        | _, _ => none
      else none
    | _ => none

def isPlanRejectedMessage (parse : String → Option Js) (text : String) :
    Option PlanRejectedMessage :=
  match parse text with
  | none => none
  | some obj => isPlanRejectedMessageCore obj

/-! ## TeamTask store and teams tool actions (`leader-teams-tool.ts`) -/

inductive TaskStatus where
  | pending
  | in_progress
  | completed
deriving DecidableEq, Repr

/-- JS object spread-and-assign `{...m, key: value}` / `m.key = value` on a
string-keyed record: replace the value in place when the key exists, append
otherwise. -/
def setMeta (m : List (String × String)) (key value : String) :
    List (String × String) :=
  if m.any (fun p => p.1 == key) then
    m.map (fun p => if p.1 == key then (key, value) else p)
  else m ++ [(key, value)]

/-- A task record (`Task` in the source; the name avoids the Lean core
type).  Ids are modelled as the store's creation counter and metadata as
string-valued (the fields these claims touch are timestamps and attribution
strings). -/
structure TeamTask where
  id : Nat
  subject : String
  description : String
  status : TaskStatus
  owner : Option String
  blockedBy : List Nat
  blocks : List Nat
  metadata : List (String × String)
deriving DecidableEq, Repr

/-- Modelled from the spec: `updateTask` from task-store.ts (not in the
sources) is a read-modify-write of the single task with the given id under
the task-list lock; the store is the ordered task list.  Returns the
updated task when found, and the new store. -/
def updateTask (store : List TeamTask) (taskId : Nat) (f : TeamTask → TeamTask) :
    Option TeamTask × List TeamTask :=
  match store.find? (fun t => t.id == taskId) with
  | none => (none, store)
  | some t =>
    let updated := f t
    (some updated, store.map (fun u => if u.id == taskId then updated else u))

/-- Modelled from the spec: `createTask({subject, description, owner?})`
from task-store.ts (not in the sources) makes a fresh-id task with status
pending and empty dependency sets. -/
def createTask (nextId : Nat) (subject description : String)
    (owner : Option String) : TeamTask :=
  { id := nextId, subject := subject, description := description
    status := .pending, owner := owner, blockedBy := [], blocks := []
    metadata := [] }

/-- Modelled from the spec: the `task_assignment` envelope built by
`taskAssignmentPayload` in protocol.ts (not in the sources): the task id,
subject, description, and the assigning leader. -/
structure TaskAssignmentPayload where
  taskId : Nat
  subject : String
  description : String
  assignedBy : String
deriving DecidableEq, Repr

def taskAssignmentPayload (t : TeamTask) (leadName : String) : TaskAssignmentPayload :=
  { taskId := t.id, subject := t.subject, description := t.description
    assignedBy := leadName }

/-- Modelled from the spec: one `writeToMailbox` call (mailbox.ts is not in
the sources): the namespace, the recipient, and the envelope appended to
that recipient's mailbox file. -/
structure MailboxWrite where
  ns : String
  recipient : String
  payload : TaskAssignmentPayload
deriving DecidableEq, Repr

/-- The `task_set_status` update transform (`leader-teams-tool.ts`): no-op
when the status is unchanged, otherwise stamp `completedAt` / `reopenedAt`
and set the new status. -/
def taskSetStatusTransform (status : TaskStatus) (nowIso : String)
    (cur : TeamTask) : TeamTask :=
  if cur.status = status then cur
  else
    let metadata := cur.metadata
    let metadata :=
      if status = .completed then setMeta metadata "completedAt" nowIso
      else metadata
    let metadata :=
      if status ≠ .completed ∧ cur.status = .completed then
        setMeta metadata "reopenedAt" nowIso
      else metadata
    { cur with status := status, metadata := metadata }

/-- The store-level `task_set_status` action: `updateTask` with the status
transform. -/
def taskSetStatusAction (store : List TeamTask) (taskId : Nat) (status : TaskStatus)
    (nowIso : String) : Option TeamTask × List TeamTask :=
  updateTask store taskId (taskSetStatusTransform status nowIso)

/-- The `task_assign` update transform (`leader-teams-tool.ts`): stamp
reassignment metadata, rewrite the owner, and send the status back to
pending unless the task is completed. -/
def taskAssignTransform (assignee nowIso leadName : String) (cur : TeamTask) : TeamTask :=
  let metadata :=
    setMeta (setMeta (setMeta cur.metadata "reassignedAt" nowIso)
      "reassignedBy" leadName) "reassignedTo" assignee
  if cur.status = .completed then
    { cur with owner := some assignee, metadata := metadata }
  else
    { cur with owner := some assignee, status := .pending, metadata := metadata }

/-- The `task_assign` action: sanitize the assignee, update the task, and
write exactly one task_assignment envelope to the assignee's task-list
mailbox (the write log is the third component). -/
def taskAssignAction (store : List TeamTask) (taskId : Nat) (assigneeRaw : String)
    (nowIso leadName taskListId : String) :
    Option TeamTask × List TeamTask × List MailboxWrite :=
  let assignee := sanitizeName assigneeRaw
  if assignee.length = 0 then (none, store, [])
  else
    match updateTask store taskId (taskAssignTransform assignee nowIso leadName) with
    | (none, _) => (none, store, [])
    | (some updated, store2) =>
      (some updated, store2,
       [{ ns := taskListId, recipient := assignee
          payload := taskAssignmentPayload updated leadName }])

/-! ## The delegate action (`leader-teams-tool.ts`) -/

structure TeamsToolDelegateTask where
  text : String
  assignee : Option String
deriving DecidableEq, Repr

structure DelegateOutcome where
  teammateNames : List String
  createdTasks : List TeamTask
  writes : List MailboxWrite
  warnings : List String
deriving DecidableEq, Repr

/-- The per-task loop of the delegate action: `rr` is the round-robin
counter and `nextId` the task-store id counter.  Spawning is modelled as
always succeeding (`createTask` and `writeToMailbox` are the spec-modelled
parts).  Returns created tasks, mailbox writes, and warnings in order. -/
def delegateLoop (names : List String) (taskListId leadName : String) :
    List TeamsToolDelegateTask → Nat → Nat →
    List TeamTask × List MailboxWrite × List String
  | [], _, _ => ([], [], [])
  | t :: rest, rr, nextId =>
    let text := jsTrim t.text
    if text.length = 0 then
      let r := delegateLoop names taskListId leadName rest rr nextId
      (r.1, r.2.1, "Skipping empty task" :: r.2.2)
    else
      match (match t.assignee with
             | some a => if a.length = 0 then none else some (sanitizeName a)
             | none => none) with
      | some assignee =>
        let firstLine := String.mk (text.data.takeWhile (fun c => c != '\n'))
        let subject := jsTake firstLine 120
        let task := createTask nextId subject text (some assignee)
        let r := delegateLoop names taskListId leadName rest rr (nextId + 1)
        (task :: r.1,
         { ns := taskListId, recipient := assignee
           payload := taskAssignmentPayload task leadName } :: r.2.1,
         r.2.2)
      | none =>
        match names.get? (rr % names.length) with
        | none =>
          let r := delegateLoop names taskListId leadName rest (rr + 1) nextId
          (r.1, r.2.1,
           ("No assignee available for task: " ++ jsTake text 60) :: r.2.2)
        | some assignee =>
          let firstLine := String.mk (text.data.takeWhile (fun c => c != '\n'))
          let subject := jsTake firstLine 120
          let task := createTask nextId subject text (some assignee)
          let r := delegateLoop names taskListId leadName rest (rr + 1) (nextId + 1)
          (task :: r.1,
           { ns := taskListId, recipient := assignee
             payload := taskAssignmentPayload task leadName } :: r.2.1,
           r.2.2)

/-- The delegate action of the teams tool, for the normal naming style
(deterministic agent names): resolve the teammate-name list (explicit list,
else running teammates, else auto-pick `min(maxTeammates, tasks.length)`
fresh agent names), then run the per-task loop. -/
def delegateAction (running : List String)
    (explicitTeammates : Option (List String)) (maxTeammates : Option Nat)
    (tasks : List TeamsToolDelegateTask) (taskListId leadName : String)
    (startId : Nat) : DelegateOutcome :=
  let explicitNames :=
    match explicitTeammates with
    | some l => (l.map sanitizeName).filter (fun n => n.length > 0)
    | none => []
  let names1 :=
    if explicitNames.length = 0 ∧ running.length > 0 then running
    else explicitNames
  let teammateNames :=
    if names1.length = 0 then
      let maxT := max 1 (min 16 (maxTeammates.getD 4))
      let count := min maxT tasks.length
      pickAgentNames count running
    else names1
  let r := delegateLoop teammateNames taskListId leadName tasks 0 startId
  { teammateNames := teammateNames, createdTasks := r.1, writes := r.2.1
    warnings := r.2.2 }

/-! ## Member pruning (`leader-teams-tool.ts`, member_prune) -/

inductive MemberRole where
  | lead
  | worker
deriving DecidableEq, Repr

inductive MemberStatus where
  | online
  | offline
deriving DecidableEq, Repr

structure TeamMember where
  name : String
  role : MemberRole
  status : MemberStatus
  lastSeenAt : Option String
  meta : List (String × String)
deriving DecidableEq, Repr

/-- Modelled from the spec: `setMemberStatus(name, status, {meta})` from
team-config.ts (not in the sources): set the status of the member with that
name and merge the metadata entries. -/
def setMemberStatus (members : List TeamMember) (name : String)
    (status : MemberStatus) (meta : List (String × String)) : List TeamMember :=
  members.map (fun m =>
    if m.name == name then
      { m with status := status
               meta := meta.foldl (fun acc p => setMeta acc p.1 p.2) m.meta }
    else m)

/-- Owners of in-progress tasks (the `inProgressOwners` set). -/
def inProgressOwners (tasks : List TeamTask) : List String :=
  tasks.filterMap (fun t =>
    match t.owner with
    | some o => if t.status == .in_progress then some o else none
    | none => none)

/-- Whether the member_prune loop prunes a given worker: no running RPC
teammate of that name, no in-progress task owned, and — unless `all` — a
parseable `lastSeenAt` at least one hour old. -/
def memberPruneCond (parseDate : String → Option Int) (running : List String)
    (owners : List String) (all : Bool) (now : Int) (m : TeamMember) : Bool :=
  !(running.contains m.name) && !(owners.contains m.name) &&
  (all ||
    match m.lastSeenAt with
    | none => false
    | some s =>
      match parseDate s with
      | none => false
      | some lastSeen => decide (now - lastSeen ≥ 60 * 60 * 1000))

/-- A member stamped offline by member_prune. -/
def markPruned (nowIso : String) (m : TeamMember) : TeamMember :=
  { m with status := .offline
           meta := setMeta (setMeta m.meta "prunedAt" nowIso)
             "prunedBy" "teams-tool" }

/-- The member_prune action: walk the config workers in order and mark the
qualifying ones offline with `prunedAt` / `prunedBy` metadata.  Returns the
pruned names and the updated member list. -/
def memberPrune (parseDate : String → Option Int) (members : List TeamMember)
    (running : List String) (tasks : List TeamTask) (all : Bool) (now : Int)
    (nowIso : String) : List String × List TeamMember :=
  let workers := members.filter (fun m => m.role == .worker)
  if workers.length = 0 then ([], members)
  else
    let owners := inProgressOwners tasks
    let pruned :=
      (workers.filter (memberPruneCond parseDate running owners all now)).map
        (fun m => m.name)
    let updated := pruned.foldl
      (fun acc name => setMemberStatus acc name .offline
        [("prunedAt", nowIso), ("prunedBy", "teams-tool")])
      members
    (pruned, updated)

/-! ## Teammate RPC close handling (`teammate-rpc.ts`) -/

inductive TeammateStatus where
  | starting
  | idle
  | streaming
  | stopped
  | error
deriving DecidableEq, Repr

/-- The observable state of one `TeammateRpc`: its status fields plus the
ids of the requests still pending. -/
structure TeammateRpcState where
  status : TeammateStatus
  lastAssistantText : String
  lastError : Option String
  pending : List String
deriving DecidableEq, Repr

/-- `${code}` for a JS `number | null` exit code. -/
def exitCodeText : Option Int → String
  | none => "null"
  | some i => if i < 0 then "-" ++ natToDecimal (-i).toNat else natToDecimal i.toNat

/-- The `close` handler installed by `TeammateRpc.start`: status becomes
stopped on exit code 0 and error otherwise (recording `lastError`), every
pending request is rejected with a process-exit error, and the pending map
is cleared.  The second component lists the rejections issued, in order. -/
def handleClose (code : Option Int) (st : TeammateRpcState) :
    TeammateRpcState × List (String × String) :=
  let statusAfter : TeammateStatus := if code == some 0 then .stopped else .error
  let lastErrorAfter :=
    if code == some 0 then st.lastError
    else some ("Teammate process exited with code " ++ exitCodeText code)
  ({ st with status := statusAfter, lastError := lastErrorAfter, pending := [] },
   st.pending.map (fun id =>
     (id, "Process exited before response (id=" ++ id ++ ")")))

/-! # Theorems -/

theorem digitChar_toNat {k : Nat} (h : k < 10) : (digitChar k).toNat = 48 + k := by
  interval_cases k <;> rfl

theorem decodeVal_append_one (xs : List Char) (c : Char) :
    decodeVal (xs ++ [c]) = 10 * decodeVal xs + (c.toNat - 48) := by
  simp [decodeVal, List.foldl_append]

theorem natDigits_decode {fuel n : Nat} (h : n < fuel) :
    decodeVal (natDigits fuel n) = n := by
  induction fuel generalizing n with
  | zero => omega
  | succ fuel ih =>
    by_cases hn : n < 10
    · simp [natDigits, hn, decodeVal, digitChar_toNat hn]
    · have h10 : (10 : Nat) ≤ n := by omega
      have hlt : n / 10 < fuel := by
        have : n / 10 < n := Nat.div_lt_self (by omega) (by omega)
        omega
      simp only [natDigits, if_neg (by omega : ¬ n < 10)]
      rw [decodeVal_append_one, ih hlt, digitChar_toNat (Nat.mod_lt n (by omega))]
      omega

theorem natToDecimal_injective : Function.Injective natToDecimal := by
  intro m n h
  have hdata : natDigits (m + 1) m = natDigits (n + 1) n := by
    have := congrArg String.data h
    simpa [natToDecimal] using this
  have hm := natDigits_decode (Nat.lt_succ_self m)
  have hn := natDigits_decode (Nat.lt_succ_self n)
  rw [← hm, ← hn, hdata]

theorem String_data_append (a b : String) : (a ++ b).data = a.data ++ b.data := rfl

theorem candAt_inj {p : String} {j k : Nat} (h : candAt p j = candAt p k) : j = k := by
  apply natToDecimal_injective
  have := congrArg String.data h
  simp only [candAt, String_data_append] at this
  have := List.append_cancel_left this
  exact congrArg String.mk this

theorem candIdx_candAt (p : String) (j : Nat) : candIdx p (candAt p j) = j := by
  have hdrop : (candAt p j).data.drop p.length = natDigits (j + 1) j := by
    simp only [candAt, String_data_append, natToDecimal]
    have : p.length = p.data.length := rfl
    rw [this, List.drop_left]
  simp only [candIdx, hdrop]
  exact natDigits_decode (Nat.lt_succ_self j)

/-- C1: `acquireTeamAttachClaim` behaviour. If no current claim exists a new
claim is written and returned ok; if the current claim has the same holder,
`heartbeatAt` is refreshed and `claimedAt` retained; if the current claim is
stale (heartbeat older than `staleMs`, or unparseable) or `force` is set, the
claim is overwritten and the replaced claim reported; otherwise the call
refuses with `claimed_by_other` and leaves the stored claim unchanged. -/
theorem acquireTeamAttachClaim_spec
    (parseDate : String → Option Int) (toIso : Int → String) (pid : Nat)
    (stored : Option TeamAttachClaim) (holder : String) (force : Bool)
    (staleMs nowMs : Int) :
    (stored = none →
      acquireTeamAttachClaim parseDate toIso pid stored holder force staleMs nowMs =
        (.ok { holderSessionId := holder, claimedAt := toIso nowMs,
               heartbeatAt := toIso nowMs, pid := pid } none,
         some { holderSessionId := holder, claimedAt := toIso nowMs,
                heartbeatAt := toIso nowMs, pid := pid })) ∧
    (∀ c, stored = some c → c.holderSessionId = holder →
      acquireTeamAttachClaim parseDate toIso pid stored holder force staleMs nowMs =
        (.ok { holderSessionId := holder, claimedAt := c.claimedAt,
               heartbeatAt := toIso nowMs, pid := pid } none,
         some { holderSessionId := holder, claimedAt := c.claimedAt,
                heartbeatAt := toIso nowMs, pid := pid })) ∧
    (∀ c, stored = some c → c.holderSessionId ≠ holder →
      ((assessAttachClaimFreshness parseDate c nowMs staleMs).isStale = true ∨ force = true) →
      acquireTeamAttachClaim parseDate toIso pid stored holder force staleMs nowMs =
        (.ok { holderSessionId := holder, claimedAt := toIso nowMs,
               heartbeatAt := toIso nowMs, pid := pid } (some c),
         some { holderSessionId := holder, claimedAt := toIso nowMs,
                heartbeatAt := toIso nowMs, pid := pid })) ∧
    (∀ c, stored = some c → c.holderSessionId ≠ holder →
      (assessAttachClaimFreshness parseDate c nowMs staleMs).isStale = false →
      force = false →
      acquireTeamAttachClaim parseDate toIso pid stored holder force staleMs nowMs =
        (.claimedByOther c, some c)) ∧
    (∀ c, (assessAttachClaimFreshness parseDate c nowMs staleMs).isStale = true ↔
      (parseDate c.heartbeatAt = none ∨
       ∃ h, parseDate c.heartbeatAt = some h ∧ max 0 (nowMs - h) > staleMs)) := by
  refine ⟨?_, ?_, ?_, ?_, ?_⟩
  · rintro rfl; rfl
  · rintro c rfl hsame
    have hb : (c.holderSessionId == holder) = true := beq_iff_eq.mpr hsame
    simp [acquireTeamAttachClaim, hb]
  · rintro c rfl hne hsf
    have hb : (c.holderSessionId == holder) = false := by
      simpa using hne
    rcases hsf with hs | hf
    · simp [acquireTeamAttachClaim, hb, hs]
    · subst hf
      simp [acquireTeamAttachClaim, hb]
  · rintro c rfl hne hs hf
    have hb : (c.holderSessionId == holder) = false := by
      simpa using hne
    subst hf
    simp [acquireTeamAttachClaim, hb, hs]
  · intro c
    cases hp : parseDate c.heartbeatAt with
    | none => simp [assessAttachClaimFreshness, hp]
    | some h => simp [assessAttachClaimFreshness, hp]

/-- Witness for C1: a concrete stale takeover (heartbeat 60 s old with a
30 s staleness threshold, different holder, no force) succeeds and reports
the replaced claim. -/
theorem acquireTeamAttachClaim_spec_witness :
    acquireTeamAttachClaim (fun s => if s == "hb0" then some 0 else none)
        (fun _ => "now-iso") 7
        (some { holderSessionId := "s1", claimedAt := "c0",
                heartbeatAt := "hb0", pid := 3 }) "s2" false 30000 60000 =
      (.ok { holderSessionId := "s2", claimedAt := "now-iso",
             heartbeatAt := "now-iso", pid := 7 }
           (some { holderSessionId := "s1", claimedAt := "c0",
                   heartbeatAt := "hb0", pid := 3 }),
       some { holderSessionId := "s2", claimedAt := "now-iso",
              heartbeatAt := "now-iso", pid := 7 }) := by
  exact (acquireTeamAttachClaim_spec (fun s => if s == "hb0" then some 0 else none)
      (fun _ => "now-iso") 7
      (some { holderSessionId := "s1", claimedAt := "c0",
              heartbeatAt := "hb0", pid := 3 }) "s2" false 30000 60000).2.2.1
    { holderSessionId := "s1", claimedAt := "c0", heartbeatAt := "hb0", pid := 3 }
    rfl (by decide) (Or.inl (by decide))


/-- C2: for every input, `resolveTeammateModelSelection` returns either `ok`
with source one of override / inherit_leader / default, or an error whose
reason is one of invalid_override / deprecated_override; in particular the
override "openai-codex/" (empty model-id half) fails with
`invalid_override`. -/
theorem resolveTeammateModelSelection_total (input : ResolveTeammateModelInput) :
    ((∃ v, resolveTeammateModelSelection input = .ok v ∧
        (v.source = .override ∨ v.source = .inherit_leader ∨ v.source = .default)) ∨
      (∃ e r, resolveTeammateModelSelection input = .err e r ∧
        (r = .invalid_override ∨ r = .deprecated_override))) ∧
    resolveTeammateModelSelection
        { modelOverride := some "openai-codex/", leaderProvider := none
          leaderModelId := none } =
      .err "Invalid model override 'openai-codex/'. Expected <provider>/<modelId>."
        .invalid_override := by
  constructor
  · cases h : resolveTeammateModelSelection input with
    | ok v =>
      refine Or.inl ⟨v, rfl, ?_⟩
      cases h2 : v.source <;> simp
    | err e r =>
      refine Or.inr ⟨e, r, rfl, ?_⟩
      cases r <;> simp
  · decide

/-- C3 counterexample: on "claude-sonnet-4x" the code returns `false`
(the character after the marker is not a separator), while the claim's
wording — marker present and not immediately followed by "-5" / ".5" —
says `true`. -/
theorem isDeprecatedTeammateModelId_claim_counterexample :
    isDeprecatedTeammateModelId "claude-sonnet-4x" = false ∧
    deprecatedPerClaimWording "claude-sonnet-4x" = true := by
  decide

/-- C3 amended: `isDeprecatedTeammateModelId` returns true iff the marker
appears in the trimmed lowercased id, no allow-listed form
("claude-sonnet-4-5" / "claude-sonnet-4.5") appears anywhere in it, and the
character immediately after the first marker occurrence is absent or one of
the separators '-', '_', '.', ':'. -/
theorem isDeprecatedTeammateModelId_amended (s : String) :
    isDeprecatedTeammateModelId s = deprecatedPerAmendedWording s := by
  unfold isDeprecatedTeammateModelId deprecatedPerAmendedWording
  by_cases h0 : (normalizeModelId s).length = 0
  · have hdata : (normalizeModelId s).data = [] := List.length_eq_zero.mp h0
    have hinc : jsIncludes (normalizeModelId s) SONNET4_DEPRECATED_MARKER = false := by
      simp [jsIncludes, jsIndexOf, hdata, firstInfixIdx, SONNET4_DEPRECATED_MARKER,
        List.isPrefixOf]
    simp [h0, hinc]
  · have hmark : hasAnyMarker (normalizeModelId s) SONNET45_ALLOWED_MARKERS =
        (jsIncludes (normalizeModelId s) "claude-sonnet-4-5" ||
         jsIncludes (normalizeModelId s) "claude-sonnet-4.5") := by
      simp [hasAnyMarker, SONNET45_ALLOWED_MARKERS]
    simp only [if_neg h0]
    by_cases h1 : jsIncludes (normalizeModelId s) SONNET4_DEPRECATED_MARKER = true
    · by_cases h3 : hasAnyMarker (normalizeModelId s) SONNET45_ALLOWED_MARKERS = true
      · have h3or : (jsIncludes (normalizeModelId s) "claude-sonnet-4-5" ||
            jsIncludes (normalizeModelId s) "claude-sonnet-4.5") = true := by
          rw [← hmark]; exact h3
        rcases Bool.or_eq_true_iff.mp h3or with h4 | h4 <;> simp [h1, h3, h4]
      · have h3f : hasAnyMarker (normalizeModelId s) SONNET45_ALLOWED_MARKERS = false := by
          revert h3
          cases hasAnyMarker (normalizeModelId s) SONNET45_ALLOWED_MARKERS <;> simp
        have h3or : (jsIncludes (normalizeModelId s) "claude-sonnet-4-5" ||
            jsIncludes (normalizeModelId s) "claude-sonnet-4.5") = false := by
          rw [← hmark]; exact h3f
        obtain ⟨ha, hb⟩ := Bool.or_eq_false_iff.mp h3or
        simp [h1, h3f, ha, hb]
    · have h1f : jsIncludes (normalizeModelId s) SONNET4_DEPRECATED_MARKER = false := by
        revert h1
        cases jsIncludes (normalizeModelId s) SONNET4_DEPRECATED_MARKER <;> simp
      simp [h1f]

theorem candFrom_mono {p : String} {s s' : Nat} {n : String} (hss : s ≤ s')
    (h : candFrom p s' n = true) : candFrom p s n = true := by
  unfold candFrom at h ⊢
  simp only [Bool.and_eq_true, decide_eq_true_eq] at h ⊢
  exact ⟨h.1, le_trans hss h.2⟩

theorem candFrom_self (p : String) (s : Nat) : candFrom p s (candAt p s) = true := by
  unfold candFrom
  rw [candIdx_candAt]
  simp

theorem candFrom_succ_self (p : String) (s : Nat) :
    candFrom p (s + 1) (candAt p s) = false := by
  unfold candFrom
  rw [candIdx_candAt]
  simp

theorem length_filter_mono {q p : String → Bool} (T : List String)
    (hqp : ∀ n, q n = true → p n = true) :
    (T.filter q).length ≤ (T.filter p).length := by
  induction T with
  | nil => simp
  | cons a T ih =>
    by_cases hq : q a = true
    · have hp := hqp a hq
      simp only [List.filter_cons, hq, hp, if_true, List.length_cons]
      omega
    · have hq' : q a = false := by revert hq; cases q a <;> simp
      by_cases hp : p a = true
      · simp only [List.filter_cons, hq', hp, Bool.false_eq_true, if_false, if_true,
          List.length_cons]
        omega
      · have hp' : p a = false := by revert hp; cases p a <;> simp
        simp only [List.filter_cons, hq', hp', Bool.false_eq_true, if_false]
        exact ih

theorem length_filter_lt {q p : String → Bool} {c : String} {T : List String}
    (hc : c ∈ T) (hpc : p c = true) (hqc : q c = false)
    (hqp : ∀ n, q n = true → p n = true) :
    (T.filter q).length < (T.filter p).length := by
  induction T with
  | nil => cases hc
  | cons a T ih =>
    rcases List.mem_cons.mp hc with rfl | hmem
    · simp only [List.filter_cons, hpc, hqc, Bool.false_eq_true, if_false, if_true,
        List.length_cons]
      have := length_filter_mono T hqp
      omega
    · by_cases hq : q a = true
      · have hp := hqp a hq
        simp only [List.filter_cons, hq, hp, if_true, List.length_cons]
        have := ih hmem
        omega
      · have hq' : q a = false := by revert hq; cases q a <;> simp
        by_cases hp : p a = true
        · simp only [List.filter_cons, hq', hp, Bool.false_eq_true, if_false, if_true,
            List.length_cons]
          have := ih hmem
          omega
        · have hp' : p a = false := by revert hp; cases p a <;> simp
          simp only [List.filter_cons, hq', hp', Bool.false_eq_true, if_false]
          exact ih hmem

theorem fallbackCandidate_fresh_aux (taken picked : List String) (base : String) :
    ∀ fuel suffix,
      ((taken ++ picked).filter (candFrom (base ++ "-") suffix)).length < fuel →
      fallbackCandidate taken picked base suffix fuel ∉ taken ∧
      fallbackCandidate taken picked base suffix fuel ∉ picked := by
  intro fuel
  induction fuel with
  | zero => intro suffix h; omega
  | succ fuel ih =>
    intro suffix h
    unfold fallbackCandidate
    by_cases hc : candAt (base ++ "-") suffix ∈ taken ∨ candAt (base ++ "-") suffix ∈ picked
    · simp only [if_pos hc]
      apply ih
      have hmemT : candAt (base ++ "-") suffix ∈ taken ++ picked := List.mem_append.mpr hc
      have hlt := length_filter_lt hmemT (candFrom_self (base ++ "-") suffix)
        (candFrom_succ_self (base ++ "-") suffix)
        (fun n hn => candFrom_mono (Nat.le_succ suffix) hn)
      omega
    · simp only [if_neg hc]
      push_neg at hc
      exact hc

theorem fallbackCandidate_fresh (taken picked : List String) (base : String) :
    fallbackCandidate taken picked base 2 (taken.length + picked.length + 1) ∉ taken ∧
    fallbackCandidate taken picked base 2 (taken.length + picked.length + 1) ∉ picked := by
  apply fallbackCandidate_fresh_aux
  have h1 : ((taken ++ picked).filter (candFrom (base ++ "-") 2)).length ≤
      (taken ++ picked).length := List.length_filter_le _ _
  have h2 : (taken ++ picked).length = taken.length + picked.length :=
    List.length_append _ _
  omega

theorem pickNamesFromPoolGo_spec (pool taken : List String) (fallbackBase : String)
    (available : List String) (hav : available.Nodup)
    (havtaken : ∀ n ∈ available, n ∉ taken) :
    ∀ remaining i picked,
      picked.Nodup → (∀ n ∈ picked, n ∉ taken) →
      (∀ n ∈ picked, n ∉ available.drop i) →
      (pickNamesFromPoolGo pool taken fallbackBase available remaining i picked).length =
        picked.length + remaining ∧
      (pickNamesFromPoolGo pool taken fallbackBase available remaining i picked).Nodup ∧
      (∀ n ∈ pickNamesFromPoolGo pool taken fallbackBase available remaining i picked,
        n ∉ taken) := by
  intro remaining
  induction remaining with
  | zero =>
    intro i picked h1 h2 h3
    exact ⟨by simp [pickNamesFromPoolGo], by simpa [pickNamesFromPoolGo] using h1,
      by simpa [pickNamesFromPoolGo] using h2⟩
  | succ remaining ih =>
    intro i picked h1 h2 h3
    unfold pickNamesFromPoolGo
    cases hg : available.get? i with
    | some avail =>
      simp only [hg]
      have hlt : i < available.length := (List.get?_eq_some.mp hg).1
      have hdropeq : available.drop i = avail :: available.drop (i + 1) := by
        rw [List.drop_eq_get_cons hlt]
        congr 1
        exact (List.get?_eq_some.mp hg).2
      have havmem : avail ∈ available := List.get?_mem hg
      have havdrop : avail ∈ available.drop i := by
        rw [hdropeq]; exact List.mem_cons_self _ _
      have hnodrop : (available.drop i).Nodup :=
        hav.sublist (List.drop_sublist i available)
      have havnotdrop : avail ∉ available.drop (i + 1) := by
        rw [hdropeq] at hnodrop
        exact (List.nodup_cons.mp hnodrop).1
      have hsub : available.drop (i + 1) ⊆ available.drop i := by
        intro x hx
        have hdd : (available.drop i).drop 1 = available.drop (i + 1) := by
          rw [List.drop_drop]
        rw [← hdd] at hx
        exact List.drop_subset _ _ hx
      have hpick' : (picked ++ [avail]).Nodup := by
        refine List.Nodup.append h1 (List.nodup_singleton _) ?_
        intro a ha hb
        rw [List.mem_singleton] at hb
        subst hb
        exact (h3 a ha) havdrop
      have h2' : ∀ n ∈ picked ++ [avail], n ∉ taken := by
        intro n hn
        rcases List.mem_append.mp hn with hn | hn
        · exact h2 n hn
        · rw [List.mem_singleton] at hn
          rw [hn]
          exact havtaken avail havmem
      have h3' : ∀ n ∈ picked ++ [avail], n ∉ available.drop (i + 1) := by
        intro n hn
        rcases List.mem_append.mp hn with hn | hn
        · exact fun hx => (h3 n hn) (hsub hx)
        · rw [List.mem_singleton] at hn; subst hn; exact havnotdrop
      obtain ⟨hl, hn, ht⟩ := ih (i + 1) (picked ++ [avail]) hpick' h2' h3'
      refine ⟨?_, hn, ht⟩
      rw [hl]
      simp only [List.length_append, List.length_singleton]
      omega
    | none =>
      simp only [hg]
      obtain ⟨hft, hfp⟩ := fallbackCandidate_fresh taken picked
        (if pool.length > 0 then pool.getD (i % pool.length) fallbackBase
         else fallbackBase)
      have hlen : available.length ≤ i := List.get?_eq_none.mp hg
      have hdropnil : available.drop (i + 1) = [] :=
        List.drop_eq_nil_of_le (by omega)
      have hpick' : (picked ++ [fallbackCandidate taken picked
          (if pool.length > 0 then pool.getD (i % pool.length) fallbackBase
           else fallbackBase) 2 (taken.length + picked.length + 1)]).Nodup := by
        refine List.Nodup.append h1 (List.nodup_singleton _) ?_
        intro a ha hb
        rw [List.mem_singleton] at hb
        subst hb
        exact hfp ha
      have h2' : ∀ n ∈ picked ++ [fallbackCandidate taken picked
          (if pool.length > 0 then pool.getD (i % pool.length) fallbackBase
           else fallbackBase) 2 (taken.length + picked.length + 1)], n ∉ taken := by
        intro n hn
        rcases List.mem_append.mp hn with hn | hn
        · exact h2 n hn
        · rw [List.mem_singleton] at hn; subst hn; exact hft
      have h3' : ∀ n ∈ picked ++ [fallbackCandidate taken picked
          (if pool.length > 0 then pool.getD (i % pool.length) fallbackBase
           else fallbackBase) 2 (taken.length + picked.length + 1)],
          n ∉ available.drop (i + 1) := by
        intro n _ hx
        rw [hdropnil] at hx
        cases hx
      obtain ⟨hl, hn, ht⟩ := ih (i + 1) _ hpick' h2' h3'
      refine ⟨?_, hn, ht⟩
      rw [hl]
      simp only [List.length_append, List.length_singleton]
      omega

theorem pickNamesFromPool_props (pool : List String) (count : Nat)
    (taken : List String) (fallbackBase : String) (hpool : pool.Nodup) :
    (pickNamesFromPool pool count taken fallbackBase).length = count ∧
    (pickNamesFromPool pool count taken fallbackBase).Nodup ∧
    ∀ n ∈ pickNamesFromPool pool count taken fallbackBase, n ∉ taken := by
  unfold pickNamesFromPool
  have hav : (pool.filter (fun n => decide (n ∉ taken))).Nodup := hpool.filter _
  have havt : ∀ n ∈ pool.filter (fun n => decide (n ∉ taken)), n ∉ taken := by
    intro n hn
    have := List.of_mem_filter hn
    simpa using this
  obtain ⟨hl, hn, ht⟩ := pickNamesFromPoolGo_spec pool taken fallbackBase _ hav havt
    count 0 [] List.nodup_nil (by simp) (by simp)
  exact ⟨by simpa using hl, hn, ht⟩

theorem pickAgentNamesGo_spec (taken : List String) (count : Nat) :
    ∀ fuel i picked,
      picked.length ≤ count →
      picked.Nodup →
      (∀ n ∈ picked, n ∉ taken) →
      (∀ n ∈ picked, ∃ j, j < i ∧ n = candAt "agent" j) →
      fuel ≥ (count - picked.length) + (taken.filter (candFrom "agent" i)).length →
      (pickAgentNamesGo taken count fuel i picked).length = count ∧
      (pickAgentNamesGo taken count fuel i picked).Nodup ∧
      (∀ n ∈ pickAgentNamesGo taken count fuel i picked, n ∉ taken) := by
  intro fuel
  induction fuel with
  | zero =>
    intro i picked hle h1 h2 _ hfuel
    have hcnt : picked.length = count := by omega
    have he : pickAgentNamesGo taken count 0 i picked = picked := rfl
    rw [he]
    exact ⟨hcnt, h1, h2⟩
  | succ fuel ih =>
    intro i picked hle h1 h2 h3 hfuel
    have he : pickAgentNamesGo taken count (fuel + 1) i picked =
        if picked.length < count then
          (if candAt "agent" i ∈ taken ∨ candAt "agent" i ∈ picked then
            pickAgentNamesGo taken count fuel (i + 1) picked
          else pickAgentNamesGo taken count fuel (i + 1)
            (picked ++ [candAt "agent" i]))
        else picked := rfl
    by_cases hcnt : picked.length < count
    · rw [he, if_pos hcnt]
      by_cases hc : candAt "agent" i ∈ taken ∨ candAt "agent" i ∈ picked
      · rw [if_pos hc]
        have hnp : candAt "agent" i ∉ picked := by
          intro hmem
          obtain ⟨j, hj, hje⟩ := h3 _ hmem
          have := candAt_inj hje.symm
          omega
        have hct : candAt "agent" i ∈ taken := hc.resolve_right hnp
        have hlt := length_filter_lt hct (candFrom_self "agent" i)
          (candFrom_succ_self "agent" i)
          (fun n hn => candFrom_mono (Nat.le_succ i) hn)
        refine ih (i + 1) picked hle h1 h2 ?_ ?_
        · intro n hn
          obtain ⟨j, hj, hje⟩ := h3 n hn
          exact ⟨j, by omega, hje⟩
        · omega
      · rw [if_neg hc]
        push_neg at hc
        obtain ⟨hct, hcp⟩ := hc
        have hmono : (taken.filter (candFrom "agent" (i + 1))).length ≤
            (taken.filter (candFrom "agent" i)).length :=
          length_filter_mono taken
            (fun n hn => candFrom_mono (Nat.le_succ i) hn)
        refine ih (i + 1) (picked ++ [candAt "agent" i]) ?_ ?_ ?_ ?_ ?_
        · simp only [List.length_append, List.length_singleton]
          omega
        · refine List.Nodup.append h1 (List.nodup_singleton _) ?_
          intro a ha hb
          rw [List.mem_singleton] at hb
          subst hb
          exact hcp ha
        · intro n hn
          rcases List.mem_append.mp hn with hn | hn
          · exact h2 n hn
          · rw [List.mem_singleton] at hn; subst hn; exact hct
        · intro n hn
          rcases List.mem_append.mp hn with hn | hn
          · obtain ⟨j, hj, hje⟩ := h3 n hn
            exact ⟨j, by omega, hje⟩
          · rw [List.mem_singleton] at hn; subst hn
            exact ⟨i, by omega, rfl⟩
        · simp only [List.length_append, List.length_singleton]
          omega
    · rw [he, if_neg hcnt]
      have hcnt' : picked.length = count := by omega
      exact ⟨hcnt', h1, h2⟩

theorem pickAgentNames_props (count : Nat) (taken : List String) :
    (pickAgentNames count taken).length = count ∧
    (pickAgentNames count taken).Nodup ∧
    ∀ n ∈ pickAgentNames count taken, n ∉ taken := by
  unfold pickAgentNames
  refine pickAgentNamesGo_spec taken count (count + taken.length) 1 []
    (by simp) (by simp) (by simp) (by simp) ?_
  have := List.length_filter_le (candFrom "agent" 1) taken
  simp only [List.length_nil, Nat.sub_zero]
  omega

/-- C10: name auto-picking always yields usable fresh names: for every count
and taken set, `pickAgentNames` returns exactly `count` pairwise-distinct
names none of which is taken; and for every duplicate-free pool,
`pickNamesFromPool` likewise returns exactly `count` pairwise-distinct names
disjoint from the taken set (falling back to suffixed names when the pool is
exhausted). -/
theorem pickNames_fresh (count : Nat) (taken : List String)
    (pool : List String) (count2 : Nat) (taken2 : List String)
    (fallbackBase : String) (hpool : pool.Nodup) :
    ((pickAgentNames count taken).length = count ∧
     (pickAgentNames count taken).Nodup ∧
     (∀ n ∈ pickAgentNames count taken, n ∉ taken)) ∧
    ((pickNamesFromPool pool count2 taken2 fallbackBase).length = count2 ∧
     (pickNamesFromPool pool count2 taken2 fallbackBase).Nodup ∧
     (∀ n ∈ pickNamesFromPool pool count2 taken2 fallbackBase, n ∉ taken2)) :=
  ⟨pickAgentNames_props count taken,
   pickNamesFromPool_props pool count2 taken2 fallbackBase hpool⟩

/-- Witness for C10 at concrete inputs: three agent names avoiding a taken
one, and a pool pick that must exhaust its two-element pool. -/
theorem pickNames_fresh_witness :
    (["a", "b"] : List String).Nodup ∧
    (((pickAgentNames 3 ["agent2"]).length = 3 ∧
      (pickAgentNames 3 ["agent2"]).Nodup ∧
      (∀ n ∈ pickAgentNames 3 ["agent2"], n ∉ (["agent2"] : List String))) ∧
     ((pickNamesFromPool ["a", "b"] 3 ["a"] "fb").length = 3 ∧
      (pickNamesFromPool ["a", "b"] 3 ["a"] "fb").Nodup ∧
      (∀ n ∈ pickNamesFromPool ["a", "b"] 3 ["a"] "fb",
        n ∉ (["a"] : List String)))) :=
  ⟨by decide, pickNames_fresh 3 ["agent2"] ["a", "b"] 3 ["a"] "fb" (by decide)⟩

theorem getStr_eq_some {j : Js} {k s : String} (h : getStr j k = some s) :
    getField j k = some (.str s) := by
  unfold getStr at h
  split at h <;> simp_all

/-- C9: every protocol envelope reader is total: whatever the input text,
each returns `none` when `JSON.parse` fails, and whenever one returns a
record the parsed value really was an object (or array) carrying the
matching `type` tag with the required fields present as strings. -/
theorem envelope_readers_total (parse : String → Option Js) (text : String) :
    (parse text = none →
      isIdleNotification parse text = none ∧
      isShutdownApproved parse text = none ∧
      isShutdownRejected parse text = none ∧
      isPlanApprovalRequest parse text = none ∧
      isPeerDmSent parse text = none ∧
      isTaskAssignmentMessage parse text = none ∧
      isShutdownRequestMessage parse text = none ∧
      isSetSessionNameMessage parse text = none ∧
      isAbortRequestMessage parse text = none ∧
      isPlanApprovedMessage parse text = none ∧
      isPlanRejectedMessage parse text = none) ∧
    (∀ r, isIdleNotification parse text = some r →
      ∃ j, parse text = some j ∧ isObjLike j = true ∧
        getField j "type" = some (.str "idle_notification")) ∧
    (∀ r, isTaskAssignmentMessage parse text = some r →
      ∃ j, parse text = some j ∧ isObjLike j = true ∧
        getField j "type" = some (.str "task_assignment") ∧
        getField j "taskId" = some (.str r.taskId)) ∧
    (∀ r, isShutdownRequestMessage parse text = some r →
      ∃ j, parse text = some j ∧ isObjLike j = true ∧
        getField j "type" = some (.str "shutdown_request") ∧
        getField j "requestId" = some (.str r.requestId)) ∧
    (∀ r, isPlanApprovalRequest parse text = some r →
      ∃ j, parse text = some j ∧ isObjLike j = true ∧
        getField j "type" = some (.str "plan_approval_request") ∧
        getField j "requestId" = some (.str r.requestId) ∧
        getField j "from" = some (.str r.«from») ∧
        getField j "plan" = some (.str r.plan)) := by
  refine ⟨?_, ?_, ?_, ?_, ?_⟩
  · intro h
    refine ⟨?_, ?_, ?_, ?_, ?_, ?_, ?_, ?_, ?_, ?_, ?_⟩ <;>
      simp [isIdleNotification, isShutdownApproved, isShutdownRejected,
        isPlanApprovalRequest, isPeerDmSent, isTaskAssignmentMessage,
        isShutdownRequestMessage, isSetSessionNameMessage, isAbortRequestMessage,
        isPlanApprovedMessage, isPlanRejectedMessage, h]
  · intro r h
    unfold isIdleNotification at h
    cases hj : parse text with
    | none => rw [hj] at h; cases h
    | some j =>
      rw [hj] at h
      have hc : isIdleNotificationCore j = some r := h
      unfold isIdleNotificationCore at hc
      have hsplit : isObjLike j = true := by
        by_contra hobj
        have hfalse : isObjLike j = false := by
          revert hobj; cases isObjLike j <;> simp
        rw [hfalse] at hc
        simp at hc
      rw [hsplit] at hc
      simp only [Bool.not_true, Bool.false_eq_true, if_false] at hc
      refine ⟨j, rfl, hsplit, ?_⟩
      split at hc
      · rename_i t heq
        split at hc
        · rename_i ht
          subst ht
          exact heq
        · cases hc
      · cases hc
  · intro r h
    unfold isTaskAssignmentMessage at h
    cases hj : parse text with
    | none => rw [hj] at h; cases h
    | some j =>
      rw [hj] at h
      have hc : isTaskAssignmentMessageCore j = some r := h
      unfold isTaskAssignmentMessageCore at hc
      have hsplit : isObjLike j = true := by
        by_contra hobj
        have hfalse : isObjLike j = false := by
          revert hobj; cases isObjLike j <;> simp
        rw [hfalse] at hc
        simp at hc
      rw [hsplit] at hc
      simp only [Bool.not_true, Bool.false_eq_true, if_false] at hc
      refine ⟨j, rfl, hsplit, ?_⟩
      split at hc
      · rename_i t heq
        split at hc
        · rename_i ht
          subst ht
          split at hc
          · rename_i taskId hti
            injection hc with h2
            rw [← h2]
            exact ⟨heq, getStr_eq_some hti⟩
          · cases hc
        · cases hc
      · cases hc
  · intro r h
    unfold isShutdownRequestMessage at h
    cases hj : parse text with
    | none => rw [hj] at h; cases h
    | some j =>
      rw [hj] at h
      have hc : isShutdownRequestMessageCore j = some r := h
      unfold isShutdownRequestMessageCore at hc
      have hsplit : isObjLike j = true := by
        by_contra hobj
        have hfalse : isObjLike j = false := by
          revert hobj; cases isObjLike j <;> simp
        rw [hfalse] at hc
        simp at hc
      rw [hsplit] at hc
      simp only [Bool.not_true, Bool.false_eq_true, if_false] at hc
      refine ⟨j, rfl, hsplit, ?_⟩
      split at hc
      · rename_i t heq
        split at hc
        · rename_i ht
          subst ht
          split at hc
          · rename_i requestId hti
            injection hc with h2
            rw [← h2]
            exact ⟨heq, getStr_eq_some hti⟩
          · cases hc
        · cases hc
      · cases hc
  · intro r h
    unfold isPlanApprovalRequest at h
    cases hj : parse text with
    | none => rw [hj] at h; cases h
    | some j =>
      rw [hj] at h
      have hc : isPlanApprovalRequestCore j = some r := h
      unfold isPlanApprovalRequestCore at hc
      have hsplit : isObjLike j = true := by
        by_contra hobj
        have hfalse : isObjLike j = false := by
          revert hobj; cases isObjLike j <;> simp
        rw [hfalse] at hc
        simp at hc
      rw [hsplit] at hc
      simp only [Bool.not_true, Bool.false_eq_true, if_false] at hc
      refine ⟨j, rfl, hsplit, ?_⟩
      split at hc
      · rename_i t heq
        split at hc
        · rename_i ht
          subst ht
          split at hc
          · rename_i requestId fromName plan hq hf hp
            injection hc with h2
            rw [← h2]
            exact ⟨heq, getStr_eq_some hq, getStr_eq_some hf, getStr_eq_some hp⟩
          all_goals cases hc
        · cases hc
      · cases hc

/-- Witness for C9: a concrete parse function returning a well-formed
task_assignment object, for which the reader produces the typed record and
the characterization applies. -/
theorem envelope_readers_total_witness :
    isTaskAssignmentMessage
        (fun t => if t = "ta" then
          some (.obj [("type", .str "task_assignment"), ("taskId", .str "T1")])
         else none) "ta" =
      some { taskId := "T1", subject := none, description := none
             assignedBy := none } ∧
    (∃ j, (fun t => if t = "ta" then
          some (Js.obj [("type", .str "task_assignment"), ("taskId", .str "T1")])
         else none) "ta" = some j ∧ isObjLike j = true ∧
      getField j "type" = some (.str "task_assignment") ∧
      getField j "taskId" = some (.str "T1")) :=
  ⟨rfl,
   (envelope_readers_total
      (fun t => if t = "ta" then
        some (.obj [("type", .str "task_assignment"), ("taskId", .str "T1")])
       else none) "ta").2.2.1
     { taskId := "T1", subject := none, description := none, assignedBy := none }
     rfl⟩

/-- C8: whenever a teammate's child process closes with exit code `c`, the
status becomes `stopped` if `c = 0` and `error` (recording `lastError`)
otherwise, and every request still pending at that moment is rejected with
a process-exit error and removed from the pending map. -/
theorem handleClose_spec (code : Option Int) (st : TeammateRpcState) :
    ((handleClose code st).1.status =
      if code = some 0 then TeammateStatus.stopped else TeammateStatus.error) ∧
    (code ≠ some 0 → (handleClose code st).1.lastError =
      some ("Teammate process exited with code " ++ exitCodeText code)) ∧
    (code = some 0 → (handleClose code st).1.lastError = st.lastError) ∧
    (handleClose code st).1.pending = [] ∧
    (handleClose code st).2 = st.pending.map (fun id =>
      (id, "Process exited before response (id=" ++ id ++ ")")) := by
  by_cases h : code = some 0
  · subst h
    exact ⟨by simp [handleClose], fun hne => absurd rfl hne,
      fun _ => by simp [handleClose], rfl, rfl⟩
  · have hb : (code == some 0) = false := by
      rw [beq_eq_false_iff_ne]
      exact h
    exact ⟨by simp [handleClose, hb, h], fun _ => by simp [handleClose, hb],
      fun hc => absurd hc h, rfl, rfl⟩

/-- Witness for C8: a nonzero exit code records the error and rejects the
pending request. -/
theorem handleClose_spec_witness :
    ((some 1 : Option Int) ≠ some 0) ∧
    (handleClose (some 1)
      { status := .streaming, lastAssistantText := ""
        lastError := none, pending := ["req-w-0"] }).1.lastError =
      some ("Teammate process exited with code " ++ exitCodeText (some 1)) :=
  ⟨by decide,
   (handleClose_spec (some 1)
     { status := .streaming, lastAssistantText := ""
       lastError := none, pending := ["req-w-0"] }).2.1 (by decide)⟩

theorem taskSetStatusTransform_id (s : TaskStatus) (iso : String) (t : TeamTask) :
    (taskSetStatusTransform s iso t).id = t.id := by
  unfold taskSetStatusTransform
  split <;> rfl

theorem taskSetStatusTransform_status (s : TaskStatus) (iso : String)
    (t : TeamTask) : (taskSetStatusTransform s iso t).status = s := by
  unfold taskSetStatusTransform
  split
  · next h => exact h
  · rfl

theorem find?_id_cons (taskId : Nat) (a : TeamTask) (l : List TeamTask) :
    (a :: l).find? (fun u => u.id == taskId) =
      if (a.id == taskId) = true then some a
      else l.find? (fun u => u.id == taskId) := by
  by_cases h : (a.id == taskId) = true
  · rw [if_pos h]
    exact List.find?_cons_of_pos _ h
  · rw [if_neg h]
    exact List.find?_cons_of_neg _ h

theorem find?_update_map (store : List TeamTask) (taskId : Nat)
    (updated : TeamTask) (hid : (updated.id == taskId) = true) :
    ∀ t, store.find? (fun u => u.id == taskId) = some t →
      (store.map (fun u => if u.id == taskId then updated else u)).find?
        (fun u => u.id == taskId) = some updated := by
  induction store with
  | nil => intro t h; cases h
  | cons a rest ih =>
    intro t h
    rw [find?_id_cons] at h
    rw [List.map_cons, find?_id_cons]
    by_cases ha : (a.id == taskId) = true
    · have hhead : (if (a.id == taskId) = true then updated else a) = updated :=
        if_pos ha
      rw [hhead, if_pos hid]
    · have hhead : (if (a.id == taskId) = true then updated else a) = a :=
        if_neg ha
      rw [if_neg ha] at h
      rw [hhead, if_neg ha]
      exact ih t h

theorem map_update_eq_self (l : List TeamTask) (taskId : Nat) (updated : TeamTask)
    (h : ∀ u ∈ l, (u.id == taskId) = true → u = updated) :
    l.map (fun u => if u.id == taskId then updated else u) = l := by
  induction l with
  | nil => rfl
  | cons a rest ih =>
    rw [List.map_cons]
    by_cases ha : (a.id == taskId) = true
    · have ha2 := h a (List.mem_cons_self _ _) ha
      rw [if_pos ha, ih (fun u hu => h u (List.mem_cons_of_mem _ hu)), ← ha2]
    · rw [if_neg ha]
      rw [ih (fun u hu => h u (List.mem_cons_of_mem _ hu))]

theorem updateTask_eq_of_none (store : List TeamTask) (taskId : Nat)
    (f : TeamTask → TeamTask)
    (hf : store.find? (fun u => u.id == taskId) = none) :
    updateTask store taskId f = (none, store) := by
  unfold updateTask
  rw [hf]

theorem updateTask_eq_of_find (store : List TeamTask) (taskId : Nat)
    (f : TeamTask → TeamTask) (t : TeamTask)
    (hf : store.find? (fun u => u.id == taskId) = some t) :
    updateTask store taskId f =
      (some (f t), store.map (fun u => if u.id == taskId then f t else u)) := by
  unfold updateTask
  rw [hf]

/-- C6: task_set_status is idempotent.  Applying the status transform to a
task that already has the requested status returns it unchanged (no
metadata stamped); the transform applied twice equals the transform applied
once; and running the store-level action a second time with the same status
leaves both the returned task and the stored list exactly as after the
first run. -/
theorem taskSetStatus_idempotent (t : TeamTask) (s : TaskStatus)
    (iso1 iso2 : String) (store : List TeamTask) (taskId : Nat) :
    (t.status = s → taskSetStatusTransform s iso1 t = t) ∧
    taskSetStatusTransform s iso2 (taskSetStatusTransform s iso1 t) =
      taskSetStatusTransform s iso1 t ∧
    (∀ r1 st1, taskSetStatusAction store taskId s iso1 = (r1, st1) →
      taskSetStatusAction st1 taskId s iso2 = (r1, st1)) := by
  have hnoop : ∀ (u : TeamTask) (iso : String), u.status = s →
      taskSetStatusTransform s iso u = u := by
    intro u iso hu
    unfold taskSetStatusTransform
    rw [if_pos hu]
  have hidem : ∀ (i1 i2 : String) (u : TeamTask),
      taskSetStatusTransform s i2 (taskSetStatusTransform s i1 u) =
        taskSetStatusTransform s i1 u :=
    fun i1 i2 u => hnoop _ i2 (taskSetStatusTransform_status s i1 u)
  refine ⟨hnoop t iso1, hidem iso1 iso2 t, ?_⟩
  intro r1 st1 h1
  cases hf : store.find? (fun u => u.id == taskId) with
  | none =>
    unfold taskSetStatusAction at h1 ⊢
    rw [updateTask_eq_of_none store taskId _ hf] at h1
    injection h1 with hr hst
    rw [← hr, ← hst]
    exact updateTask_eq_of_none store taskId _ hf
  | some t0 =>
    have hid0 : (t0.id == taskId) = true := by
      have hp := List.find?_some hf
      simpa using hp
    have hid1 : ((taskSetStatusTransform s iso1 t0).id == taskId) = true := by
      rw [taskSetStatusTransform_id]
      exact hid0
    unfold taskSetStatusAction at h1 ⊢
    rw [updateTask_eq_of_find store taskId _ t0 hf] at h1
    injection h1 with hr hst
    rw [← hr, ← hst]
    rw [updateTask_eq_of_find _ taskId _ (taskSetStatusTransform s iso1 t0)
      (find?_update_map store taskId _ hid1 t0 hf)]
    rw [hidem iso1 iso2 t0]
    rw [map_update_eq_self]
    intro u hu hut
    obtain ⟨v, hv, rfl⟩ := List.mem_map.mp hu
    by_cases hvt : (v.id == taskId) = true
    · rw [if_pos hvt]
    · rw [if_neg hvt] at hut ⊢
      exact absurd hut hvt

/-- Witness for C6: setting the status of an already-pending task is a
no-op, and a second store-level run changes nothing. -/
theorem taskSetStatus_idempotent_witness :
    (TaskStatus.pending = TaskStatus.pending →
      taskSetStatusTransform .pending "x"
        { id := 1, subject := "s", description := "d", status := .pending
          owner := none, blockedBy := [], blocks := [], metadata := [] } =
      { id := 1, subject := "s", description := "d", status := .pending
        owner := none, blockedBy := [], blocks := [], metadata := [] }) ∧
    ((taskSetStatusTransform .pending "x"
        { id := 1, subject := "s", description := "d", status := .pending
          owner := none, blockedBy := [], blocks := [], metadata := [] }).status =
      TaskStatus.pending) := by
  have h := taskSetStatus_idempotent
    { id := 1, subject := "s", description := "d", status := .pending
      owner := none, blockedBy := [], blocks := [], metadata := [] }
    .pending "x" "y" [] 1
  exact ⟨fun hp => h.1 hp, by decide⟩

/-- C7: for every task_assign call on an existing task with a non-empty
sanitized assignee, the task's owner is rewritten to the sanitized
assignee, the status goes back to pending unless the task is completed
(a completed task keeps status completed), and exactly one task_assignment
envelope is written to the assignee's task-list mailbox. -/
theorem taskAssign_spec (store : List TeamTask) (taskId : Nat)
    (assigneeRaw nowIso leadName taskListId : String) (t : TeamTask)
    (hfind : store.find? (fun u => u.id == taskId) = some t)
    (hname : (sanitizeName assigneeRaw).length ≠ 0) :
    taskAssignAction store taskId assigneeRaw nowIso leadName taskListId =
      (some (taskAssignTransform (sanitizeName assigneeRaw) nowIso leadName t),
       store.map (fun u => if u.id == taskId then
         taskAssignTransform (sanitizeName assigneeRaw) nowIso leadName t else u),
       [{ ns := taskListId, recipient := sanitizeName assigneeRaw
          payload := taskAssignmentPayload
            (taskAssignTransform (sanitizeName assigneeRaw) nowIso leadName t)
            leadName }]) ∧
    (taskAssignTransform (sanitizeName assigneeRaw) nowIso leadName t).owner =
      some (sanitizeName assigneeRaw) ∧
    (taskAssignTransform (sanitizeName assigneeRaw) nowIso leadName t).status =
      (if t.status = .completed then TaskStatus.completed else .pending) ∧
    (taskAssignTransform (sanitizeName assigneeRaw) nowIso leadName t).id = t.id := by
  refine ⟨?_, ?_, ?_, ?_⟩
  · unfold taskAssignAction
    rw [if_neg hname, updateTask_eq_of_find store taskId _ t hfind]
  · unfold taskAssignTransform
    split <;> rfl
  · unfold taskAssignTransform
    by_cases h : t.status = .completed
    · rw [if_pos h, if_pos h]
      exact h
    · rw [if_neg h, if_neg h]
  · unfold taskAssignTransform
    split <;> rfl

/-- Witness for C7: assigning a completed task rewrites the owner, keeps
status completed, and issues exactly one envelope. -/
theorem taskAssign_spec_witness :
    ([({ id := 7, subject := "s", description := "d", status := .completed
         owner := some "old", blockedBy := [], blocks := []
         metadata := [] } : TeamTask)].find? (fun u => u.id == 7) =
      some { id := 7, subject := "s", description := "d", status := .completed
             owner := some "old", blockedBy := [], blocks := []
             metadata := [] }) ∧
    ((sanitizeName "w 1").length ≠ 0) ∧
    (taskAssignAction
        [{ id := 7, subject := "s", description := "d", status := .completed
           owner := some "old", blockedBy := [], blocks := []
           metadata := [] }] 7 "w 1" "now" "team-lead" "tl1" =
      (some (taskAssignTransform (sanitizeName "w 1") "now" "team-lead"
        { id := 7, subject := "s", description := "d", status := .completed
          owner := some "old", blockedBy := [], blocks := [], metadata := [] }),
       [{ id := 7, subject := "s", description := "d", status := .completed
          owner := some "old", blockedBy := [], blocks := []
          metadata := [] }].map (fun u => if u.id == 7 then
            taskAssignTransform (sanitizeName "w 1") "now" "team-lead"
              { id := 7, subject := "s", description := "d"
                status := .completed, owner := some "old", blockedBy := []
                blocks := [], metadata := [] } else u),
       [{ ns := "tl1", recipient := sanitizeName "w 1"
          payload := taskAssignmentPayload
            (taskAssignTransform (sanitizeName "w 1") "now" "team-lead"
              { id := 7, subject := "s", description := "d"
                status := .completed, owner := some "old", blockedBy := []
                blocks := [], metadata := [] }) "team-lead" }])) := by
  refine ⟨rfl, by decide, ?_⟩
  exact (taskAssign_spec
    [{ id := 7, subject := "s", description := "d", status := .completed
       owner := some "old", blockedBy := [], blocks := [], metadata := [] }]
    7 "w 1" "now" "team-lead" "tl1"
    { id := 7, subject := "s", description := "d", status := .completed
      owner := some "old", blockedBy := [], blocks := [], metadata := [] }
    rfl (by decide)).1

theorem setMemberStatus_foldl (nowIso : String) :
    ∀ (names : List String) (members : List TeamMember), names.Nodup →
      names.foldl (fun acc name => setMemberStatus acc name .offline
        [("prunedAt", nowIso), ("prunedBy", "teams-tool")]) members =
      members.map (fun m => if m.name ∈ names then markPruned nowIso m else m) := by
  intro names
  induction names with
  | nil =>
    intro members _
    simp [List.foldl]
  | cons n names ih =>
    intro members hnodup
    obtain ⟨hn, hnodup2⟩ := List.nodup_cons.mp hnodup
    rw [List.foldl_cons, ih _ hnodup2]
    unfold setMemberStatus
    rw [List.map_map]
    apply List.map_congr_left
    intro m _
    by_cases hmn : (m.name == n) = true
    · have heq : m.name = n := by simpa using hmn
      have hnotin : ¬ m.name ∈ names := by rw [heq]; exact hn
      simp only [Function.comp_apply, if_pos hmn]
      rw [if_neg hnotin, if_pos (by rw [heq]; exact List.mem_cons_self _ _)]
      rfl
    · have hne : ¬ m.name = n := by simpa using hmn
      simp only [Function.comp_apply, if_neg hmn]
      by_cases hin : m.name ∈ names
      · rw [if_pos hin, if_pos (List.mem_cons_of_mem _ hin)]
      · rw [if_neg hin, if_neg (by
          intro hmem
          rcases List.mem_cons.mp hmem with h | h
          · exact hne h
          · exact hin h)]

/-- C5: member_prune marks offline (stamping `prunedAt` and
`prunedBy = "teams-tool"`) exactly those config workers that have no
running RPC teammate, own no in-progress task, and — unless all=true — have
a parseable `lastSeenAt` at least one hour old; all other members are left
unchanged. -/
theorem memberPrune_spec (parseDate : String → Option Int)
    (members : List TeamMember) (running : List String) (tasks : List TeamTask)
    (all : Bool) (now : Int) (nowIso : String)
    (hnodup : (members.map (fun m => m.name)).Nodup)
    (hworkers : ((members.filter (fun m => m.role == .worker)).length = 0) → False) :
    (memberPrune parseDate members running tasks all now nowIso).1 =
      ((members.filter (fun m => m.role == .worker)).filter
        (memberPruneCond parseDate running (inProgressOwners tasks) all now)).map
        (fun m => m.name) ∧
    (memberPrune parseDate members running tasks all now nowIso).2 =
      members.map (fun m =>
        if (m.role == .worker) = true ∧
            memberPruneCond parseDate running (inProgressOwners tasks) all now m
              = true then
          markPruned nowIso m
        else m) := by
  have hpruned_nodup :
      (((members.filter (fun m => m.role == .worker)).filter
        (memberPruneCond parseDate running (inProgressOwners tasks) all now)).map
        (fun m => m.name)).Nodup := by
    apply hnodup.sublist
    apply List.Sublist.map
    exact List.Sublist.trans (List.filter_sublist _) (List.filter_sublist _)
  simp only [memberPrune]
  rw [if_neg hworkers]
  refine ⟨rfl, ?_⟩
  rw [setMemberStatus_foldl nowIso _ members hpruned_nodup]
  apply List.map_congr_left
  intro m hm
  by_cases hcond : (m.role == .worker) = true ∧
      memberPruneCond parseDate running (inProgressOwners tasks) all now m = true
  · rw [if_pos hcond]
    have hmem : m.name ∈
        ((members.filter (fun u => u.role == .worker)).filter
          (memberPruneCond parseDate running (inProgressOwners tasks) all now)).map
          (fun u => u.name) := by
      apply List.mem_map_of_mem
      exact List.mem_filter.mpr ⟨List.mem_filter.mpr ⟨hm, hcond.1⟩, hcond.2⟩
    rw [if_pos hmem]
  · rw [if_neg hcond]
    have hnmem : ¬ m.name ∈
        ((members.filter (fun u => u.role == .worker)).filter
          (memberPruneCond parseDate running (inProgressOwners tasks) all now)).map
          (fun u => u.name) := by
      intro hmem
      obtain ⟨m2, hm2, hname⟩ := List.mem_map.mp hmem
      obtain ⟨hm2w, hm2c⟩ := List.mem_filter.mp hm2
      obtain ⟨hm2mem, hm2role⟩ := List.mem_filter.mp hm2w
      have heq : m2 = m :=
        List.inj_on_of_nodup_map hnodup hm2mem hm hname
      rw [heq] at hm2role hm2c
      exact hcond ⟨hm2role, hm2c⟩
    rw [if_neg hnmem]

/-- Witness for C5 (the prune-cutoff scenario): a worker last seen 10
minutes ago is not pruned with all=false but is pruned, and stamped, with
all=true. -/
theorem memberPrune_spec_witness :
    (([{ name := "w1", role := .worker, status := .online
         lastSeenAt := some "t10m", meta := [] }] :
        List TeamMember).map (fun m => m.name)).Nodup ∧
    (memberPrune (fun s => if s == "t10m" then some 3000000 else none)
      [{ name := "w1", role := .worker, status := .online
         lastSeenAt := some "t10m", meta := [] }] [] [] false 3600000 "now").1 =
      [] ∧
    (memberPrune (fun s => if s == "t10m" then some 3000000 else none)
      [{ name := "w1", role := .worker, status := .online
         lastSeenAt := some "t10m", meta := [] }] [] [] true 3600000 "now").2 =
      [{ name := "w1", role := .worker, status := .offline
         lastSeenAt := some "t10m"
         meta := [("prunedAt", "now"), ("prunedBy", "teams-tool")] }] := by
  refine ⟨by decide, ?_, ?_⟩
  · rw [(memberPrune_spec (fun s => if s == "t10m" then some 3000000 else none)
      [{ name := "w1", role := .worker, status := .online
         lastSeenAt := some "t10m", meta := [] }] [] [] false 3600000 "now"
      (by decide) (by decide)).1]
    decide
  · rw [(memberPrune_spec (fun s => if s == "t10m" then some 3000000 else none)
      [{ name := "w1", role := .worker, status := .online
         lastSeenAt := some "t10m", meta := [] }] [] [] true 3600000 "now"
      (by decide) (by decide)).2]
    decide

theorem delegateLoop_spec (names : List String) (taskListId leadName : String)
    (hnames : names.length ≠ 0) :
    ∀ (ts : List TeamsToolDelegateTask) (rr nextId : Nat),
      (∀ t ∈ ts, t.assignee = none) →
      (∀ t ∈ ts, (jsTrim t.text).length ≠ 0) →
      (delegateLoop names taskListId leadName ts rr nextId).1.length = ts.length ∧
      (delegateLoop names taskListId leadName ts rr nextId).2.2 = [] ∧
      (delegateLoop names taskListId leadName ts rr nextId).2.1 =
        (delegateLoop names taskListId leadName ts rr nextId).1.map
          (fun task => { ns := taskListId
                         recipient := task.owner.getD ""
                         payload := taskAssignmentPayload task leadName }) ∧
      (∀ i, i < ts.length →
        ∃ t name, ts.get? i = some t ∧
          names.get? ((rr + i) % names.length) = some name ∧
          (delegateLoop names taskListId leadName ts rr nextId).1.get? i =
            some (createTask (nextId + i)
              (jsTake (String.mk ((jsTrim t.text).data.takeWhile
                (fun c => c != '\n'))) 120)
              (jsTrim t.text) (some name))) := by
  intro ts
  induction ts with
  | nil =>
    intro rr nextId _ _
    refine ⟨rfl, rfl, rfl, ?_⟩
    intro i hi
    exact absurd hi (by simp)
  | cons t rest ih =>
    intro rr nextId hassign htext
    obtain ⟨txt, asg⟩ := t
    have hasg : asg = none := hassign _ (List.mem_cons_self _ _)
    subst hasg
    have htxt : (jsTrim txt).length ≠ 0 := htext _ (List.mem_cons_self _ _)
    have hlen : rr % names.length < names.length := Nat.mod_lt _ (by omega)
    obtain ⟨name0, hname0⟩ : ∃ nm, names.get? (rr % names.length) = some nm := by
      rw [List.get?_eq_get hlen]
      exact ⟨_, rfl⟩
    have he : delegateLoop names taskListId leadName
        ({ text := txt, assignee := none } :: rest) rr nextId =
      (createTask nextId
          (jsTake (String.mk ((jsTrim txt).data.takeWhile (fun c => c != '\n'))) 120)
          (jsTrim txt) (some name0) ::
        (delegateLoop names taskListId leadName rest (rr + 1) (nextId + 1)).1,
       { ns := taskListId, recipient := name0
         payload := taskAssignmentPayload (createTask nextId
           (jsTake (String.mk ((jsTrim txt).data.takeWhile (fun c => c != '\n'))) 120)
           (jsTrim txt) (some name0)) leadName } ::
        (delegateLoop names taskListId leadName rest (rr + 1) (nextId + 1)).2.1,
       (delegateLoop names taskListId leadName rest (rr + 1) (nextId + 1)).2.2) := by
      simp only [delegateLoop]
      rw [if_neg htxt, hname0]
    obtain ⟨ihlen, ihwarn, ihwrites, ihidx⟩ := ih (rr + 1) (nextId + 1)
      (fun u hu => hassign u (List.mem_cons_of_mem _ hu))
      (fun u hu => htext u (List.mem_cons_of_mem _ hu))
    rw [he]
    refine ⟨?_, ihwarn, ?_, ?_⟩
    · simp only [List.length_cons]
      rw [ihlen]
    · simp only [List.map_cons]
      rw [ihwrites]
      rfl
    · intro i hi
      cases i with
      | zero =>
        refine ⟨{ text := txt, assignee := none }, name0, rfl, ?_, rfl⟩
        simpa using hname0
      | succ i =>
        have hi2 : i < rest.length := by simpa using hi
        obtain ⟨t2, name2, hts, hn2, hc2⟩ := ihidx i hi2
        refine ⟨t2, name2, ?_, ?_, ?_⟩
        · simpa using hts
        · rw [show rr + (i + 1) = rr + 1 + i from by omega]
          exact hn2
        · rw [List.get?_cons_succ,
            show nextId + (i + 1) = nextId + 1 + i from by omega]
          exact hc2

/-- C4: for a delegate action whose tasks all omit the assignee and have
non-empty text, when no teammates exist the tool auto-names exactly
`min(maxTeammates, tasks.length)` pairwise-distinct workers and assigns the
tasks round-robin over them in order, creating one pending task per input
and writing exactly one task_assignment envelope to each assignee's
task-list mailbox per created task. -/
theorem delegate_round_robin (tasks : List TeamsToolDelegateTask) (maxT : Nat)
    (taskListId leadName : String) (startId : Nat)
    (hmax1 : 1 ≤ maxT) (hmax2 : maxT ≤ 16) (hne : tasks.length ≠ 0)
    (hassign : ∀ t ∈ tasks, t.assignee = none)
    (htext : ∀ t ∈ tasks, (jsTrim t.text).length ≠ 0) :
    (delegateAction [] none (some maxT) tasks taskListId leadName
      startId).teammateNames = pickAgentNames (min maxT tasks.length) [] ∧
    (delegateAction [] none (some maxT) tasks taskListId leadName
      startId).teammateNames.length = min maxT tasks.length ∧
    (delegateAction [] none (some maxT) tasks taskListId leadName
      startId).teammateNames.Nodup ∧
    (delegateAction [] none (some maxT) tasks taskListId leadName
      startId).createdTasks.length = tasks.length ∧
    (delegateAction [] none (some maxT) tasks taskListId leadName
      startId).warnings = [] ∧
    (delegateAction [] none (some maxT) tasks taskListId leadName
      startId).writes =
      (delegateAction [] none (some maxT) tasks taskListId leadName
        startId).createdTasks.map
        (fun task => { ns := taskListId, recipient := task.owner.getD ""
                       payload := taskAssignmentPayload task leadName }) ∧
    (∀ i, i < tasks.length →
      ∃ t name, tasks.get? i = some t ∧
        (pickAgentNames (min maxT tasks.length) []).get?
          (i % (min maxT tasks.length)) = some name ∧
        (delegateAction [] none (some maxT) tasks taskListId leadName
          startId).createdTasks.get? i =
          some (createTask (startId + i)
            (jsTake (String.mk ((jsTrim t.text).data.takeWhile
              (fun c => c != '\n'))) 120)
            (jsTrim t.text) (some name))) := by
  have hmaxeq : max 1 (min 16 maxT) = maxT := by omega
  obtain ⟨hplen, hpnodup, -⟩ := pickAgentNames_props (min maxT tasks.length) []
  have hnames : (pickAgentNames (min maxT tasks.length) []).length ≠ 0 := by
    rw [hplen]
    omega
  have e : delegateAction [] none (some maxT) tasks taskListId leadName startId =
      { teammateNames := pickAgentNames (min maxT tasks.length) []
        createdTasks := (delegateLoop (pickAgentNames (min maxT tasks.length) [])
          taskListId leadName tasks 0 startId).1
        writes := (delegateLoop (pickAgentNames (min maxT tasks.length) [])
          taskListId leadName tasks 0 startId).2.1
        warnings := (delegateLoop (pickAgentNames (min maxT tasks.length) [])
          taskListId leadName tasks 0 startId).2.2 } := by
    simp [delegateAction, hmaxeq]
  obtain ⟨hllen, hlwarn, hlwrites, hlidx⟩ :=
    delegateLoop_spec (pickAgentNames (min maxT tasks.length) []) taskListId
      leadName hnames tasks 0 startId hassign htext
  rw [e]
  refine ⟨rfl, hplen, hpnodup, hllen, hlwarn, hlwrites, ?_⟩
  intro i hi
  obtain ⟨t, name, hts, hn, hc⟩ := hlidx i hi
  refine ⟨t, name, hts, ?_, hc⟩
  rw [Nat.zero_add, hplen] at hn
  exact hn

/-- Witness for C4 (scenario S1): three assignee-less tasks A, B, C with
maxTeammates = 2 spawn two agents and delegate round-robin. -/
theorem delegate_round_robin_witness :
    (1 ≤ 2 ∧ 2 ≤ 16 ∧
      ([{ text := "A", assignee := none }, { text := "B", assignee := none },
        { text := "C", assignee := none }] :
          List TeamsToolDelegateTask).length ≠ 0) ∧
    (delegateAction [] none (some 2)
      [{ text := "A", assignee := none }, { text := "B", assignee := none },
       { text := "C", assignee := none }] "tl1" "team-lead" 1).teammateNames =
      pickAgentNames (min 2 3) [] ∧
    (delegateAction [] none (some 2)
      [{ text := "A", assignee := none }, { text := "B", assignee := none },
       { text := "C", assignee := none }] "tl1" "team-lead" 1).createdTasks.length
      = 3 ∧
    (delegateAction [] none (some 2)
      [{ text := "A", assignee := none }, { text := "B", assignee := none },
       { text := "C", assignee := none }] "tl1" "team-lead" 1).writes =
      (delegateAction [] none (some 2)
        [{ text := "A", assignee := none }, { text := "B", assignee := none },
         { text := "C", assignee := none }] "tl1" "team-lead"
        1).createdTasks.map
        (fun task => { ns := "tl1", recipient := task.owner.getD ""
                       payload := taskAssignmentPayload task "team-lead" }) := by
  have h := delegate_round_robin
    [{ text := "A", assignee := none }, { text := "B", assignee := none },
     { text := "C", assignee := none }] 2 "tl1" "team-lead" 1
    (by decide) (by decide) (by decide) (by decide) (by decide)
  exact ⟨⟨by decide, by decide, by decide⟩, h.1, h.2.2.2.1, h.2.2.2.2.2.1⟩

/-- Concrete S1 check, independent of the general theorem: with tasks
A, B, C and maxTeammates = 2, the owners come out agent1, agent2, agent1. -/
theorem delegate_s1_owners :
    ((delegateAction [] none (some 2)
      [{ text := "A", assignee := none }, { text := "B", assignee := none },
       { text := "C", assignee := none }] "tl1" "team-lead" 1).createdTasks.map
        (fun t => t.owner)) = [some "agent1", some "agent2", some "agent1"] := by
  decide
